import Mathlib

/-!
# Lite Read: the overlay engine of `content.js`

A shallow embedding of the content script of the Lite Read browser extension: the style
snapshot store, the relative style applier, the resetter, the pangu spacing pass, the mutation
observer with its debounce timer, and the request handler.  JavaScript numbers are modelled as
IEEE-754 binary64 values with round-to-nearest-even arithmetic; the document is a tree of node
identities whose mutable parts (text content, style attribute) live in the window state; the
host (computed styles, the CSS value check, the pangu library) is a parameter.
-/

namespace LiteRead

/-! ## JavaScript numbers (IEEE-754 binary64) -/

/-- A JavaScript Number.  A finite value is `(-1)^neg * mant * 2^exp`; values produced by the
operations below are kept in lowest terms (`mant` odd, or `mant = 0` and `exp = 0`). -/
inductive F64 where
  | nan
  | inf (neg : Bool)
  | fin (neg : Bool) (mant : Nat) (exp : Int)
deriving DecidableEq, Repr

/-- Number of binary digits of `n`, computed with at most `fuel` halvings. -/
def bitLen : Nat → Nat → Nat
  | 0, _ => 0
  | fuel + 1, n => if n = 0 then 0 else bitLen fuel (n / 2) + 1

/-- Divide out factors of two (at most `fuel` of them), raising the exponent. -/
def stripTwos : Nat → Nat → Int → Nat × Int
  | 0, m, e => (m, e)
  | fuel + 1, m, e => if m % 2 = 0 ∧ m ≠ 0 then stripTwos fuel (m / 2) (e + 1) else (m, e)

/-- Build the finite number `(-1)^neg * m * 2^e` in lowest terms, or infinity when it is
beyond the binary64 range. -/
def F64.pack (neg : Bool) (m : Nat) (e : Int) : F64 :=
  if m = 0 then .fin neg 0 0
  else
    let p := stripTwos 64 m e
    if p.2 + (bitLen 64 p.1 : Int) > 1024 then .inf neg else .fin neg p.1 p.2

/-- Round the non-negative rational `n / d` (with `d > 0`) to the nearest binary64 value,
ties to even, and give it the sign `neg`. -/
def F64.round (neg : Bool) (n d : Nat) : F64 :=
  if n = 0 then .fin neg 0 0
  else
    let e0 : Int := (bitLen n n : Int) - (bitLen d d : Int) - 53
    let q0 := (n * 2 ^ (-e0).toNat) / (d * 2 ^ e0.toNat)
    let e1 : Int := if q0 ≥ 2 ^ 53 then e0 + 1 else e0
    let e : Int := max e1 (-1074)
    let num := n * 2 ^ (-e).toNat
    let den := d * 2 ^ e.toNat
    let q := num / den
    let r := num % den
    let q1 := if 2 * r > den ∨ (2 * r = den ∧ q % 2 = 1) then q + 1 else q
    F64.pack neg q1 e

/-- The number `(-1)^neg * m * 2^e` rounded to binary64. -/
def F64.ofDyadic (neg : Bool) (m : Nat) (e : Int) : F64 :=
  F64.round neg (m * 2 ^ e.toNat) (2 ^ (-e).toNat)

/-- The integer `i` as a Number. -/
def F64.ofInt (i : Int) : F64 := F64.round (decide (i < 0)) i.natAbs 1

/-- The Number denoted by the decimal literal `n / 10^k`. -/
def F64.lit (n k : Nat) : F64 := F64.round false n (10 ^ k)

/-- Signed integer mantissa of a finite number at exponent `e` (which must not exceed the
number's own exponent). -/
def F64.scaled (neg : Bool) (m : Nat) (x e : Int) : Int :=
  let v : Int := (m * 2 ^ (x - e).toNat : Nat)
  if neg then -v else v

/-- JavaScript `a + b`. -/
def F64.add : F64 → F64 → F64
  | .nan, _ => .nan
  | _, .nan => .nan
  | .inf s, .inf t => if s = t then .inf s else .nan
  | .inf s, .fin _ _ _ => .inf s
  | .fin _ _ _, .inf t => .inf t
  | .fin s m x, .fin t n y =>
    let e := min x y
    let sum := F64.scaled s m x e + F64.scaled t n y e
    if sum = 0 then .fin (s && t) 0 0
    else F64.ofDyadic (decide (sum < 0)) sum.natAbs e

/-- JavaScript `a * b`. -/
def F64.mul : F64 → F64 → F64
  | .nan, _ => .nan
  | _, .nan => .nan
  | .inf s, .inf t => .inf (xor s t)
  | .inf s, .fin t n _ => if n = 0 then .nan else .inf (xor s t)
  | .fin s m _, .inf t => if m = 0 then .nan else .inf (xor s t)
  | .fin s m x, .fin t n y => F64.ofDyadic (xor s t) (m * n) (x + y)

/-- JavaScript `isNaN(a)` on a Number. -/
def F64.isNaN : F64 → Bool
  | .nan => true
  | _ => false

/-- JavaScript `a < b`. -/
def F64.lt : F64 → F64 → Bool
  | .nan, _ => false
  | _, .nan => false
  | .inf s, .inf t => s && !t
  | .inf s, .fin _ _ _ => s
  | .fin _ _ _, .inf t => !t
  | .fin s m x, .fin t n y =>
    let e := min x y
    decide (F64.scaled s m x e < F64.scaled t n y e)

/-- JavaScript `a === b` on Numbers (`NaN` is unequal to itself, `-0 === 0`). -/
def F64.strictEq : F64 → F64 → Bool
  | .nan, _ => false
  | _, .nan => false
  | .inf s, .inf t => s == t
  | .inf _, .fin _ _ _ => false
  | .fin _ _ _, .inf _ => false
  | .fin s m x, .fin t n y =>
    let e := min x y
    decide (F64.scaled s m x e = F64.scaled t n y e)

/-- The Number `0`. -/
def F64.zero : F64 := .fin false 0 0

/-- JavaScript `a > b`. -/
def F64.gt (a b : F64) : Bool := F64.lt b a

/-- JavaScript `a <= b`. -/
def F64.le (a b : F64) : Bool := F64.lt a b || F64.strictEq a b

/-- JavaScript `Math.abs(a)`. -/
def F64.abs : F64 → F64
  | .nan => .nan
  | .inf _ => .inf false
  | .fin _ m e => .fin false m e

/-- JavaScript truthiness of a Number: false for `NaN`, `0` and `-0`. -/
def F64.truthy : F64 → Bool
  | .nan => false
  | .inf _ => true
  | .fin _ m _ => m != 0

/-! ### Number to string -/

/-- Compare the positive rational `n / d` with `10^p`: is `n / d < 10^p`? -/
def ltPow10 (n d : Nat) (p : Int) : Bool :=
  decide (n * 10 ^ (-p).toNat < d * 10 ^ p.toNat)

/-- Least `p ≥ start` (within `fuel` steps) such that `n / d < 10^p`. -/
def decimalPoint : Nat → Nat → Nat → Int → Int
  | 0, _, _, p => p
  | fuel + 1, n, d, p => if ltPow10 n d p then p else decimalPoint fuel n d (p + 1)

/-- Search for the shortest digit string: the least `k` (from `k` upward, within `fuel` steps)
and an integer `s` of `k` digits with `s * 10^(p-k)` rounding to `x`, nearest to `n / d`.
Returns `s` and the position `p` of the decimal point. -/
def shortest : Nat → F64 → Nat → Nat → Int → Nat → Nat × Int
  | 0, _, n, d, p, k => (n * 10 ^ ((k : Int) - p).toNat / (d * 10 ^ (p - k).toNat), p)
  | fuel + 1, x, n, d, p, k =>
    let num := n * 10 ^ ((k : Int) - p).toNat
    let den := d * 10 ^ (p - k).toNat
    let lo := num / den
    let r := num % den
    let hi := lo + 1
    let okLo := decide (F64.round false (lo * 10 ^ (p - k).toNat) (10 ^ ((k : Int) - p).toNat) = x)
    let okHi := decide (F64.round false (hi * 10 ^ (p - k).toNat) (10 ^ ((k : Int) - p).toNat) = x)
    let preferHi := decide (2 * r > den) || (decide (2 * r = den) && decide (lo % 2 = 1))
    if okLo && okHi then
      (if preferHi then (if hi = 10 ^ k then (10 ^ (k - 1), p + 1) else (hi, p)) else (lo, p))
    else if okLo then (lo, p)
    else if okHi then (if hi = 10 ^ k then (10 ^ (k - 1), p + 1) else (hi, p))
    else shortest fuel x n d p (k + 1)

/-- Drop trailing zero digits of `s`: the digit string of Number::toString has no trailing
zeros, since `k` is minimal. -/
def dropZeros : Nat → Nat → Nat
  | 0, s => s
  | fuel + 1, s => if s % 10 = 0 ∧ s ≠ 0 then dropZeros fuel (s / 10) else s

/-- Digits of a natural number, most significant first. -/
def digitsOf (n : Nat) : List Char := Nat.toDigits 10 n

/-- The text of Number::toString for a positive finite value with digits `ds` (no trailing
zeros) and decimal point position `p`. -/
def formatDigits (ds : List Char) (p : Int) : List Char :=
  let k : Int := ds.length
  if k ≤ p ∧ p ≤ 21 then ds ++ List.replicate (p - k).toNat '0'
  else if 0 < p ∧ p ≤ 21 then ds.take p.toNat ++ '.' :: ds.drop p.toNat
  else if -6 < p ∧ p ≤ 0 then '0' :: '.' :: (List.replicate (-p).toNat '0' ++ ds)
  else
    let e := p - 1
    let es := (if e < 0 then '-' else '+') :: digitsOf e.natAbs
    match ds with
    | [] => []
    | [c] => c :: 'e' :: es
    | c :: cs => c :: '.' :: (cs ++ 'e' :: es)

/-- JavaScript Number::toString (radix 10), as used by template literals. -/
def F64.toString : F64 → String
  | .nan => "NaN"
  | .inf neg => if neg then "-Infinity" else "Infinity"
  | .fin neg m e =>
    if m = 0 then "0"
    else
      let n := m * 2 ^ e.toNat
      let d := 2 ^ (-e).toNat
      let p := decimalPoint 8 n d ((((bitLen n n : Int) - (bitLen d d : Int) - 1) * 30103) / 100000 - 1)
      let sp := shortest 17 (.fin false m e) n d p 1
      let ds := digitsOf (dropZeros 20 sp.1)
      String.mk ((if neg then ['-'] else []) ++ formatDigits ds sp.2)

/-! ### String to number -/

/-- ECMAScript WhiteSpace and LineTerminator code points. -/
def isJsSpace (c : Char) : Bool :=
  let n := c.toNat
  n = 0x09 || n = 0x0A || n = 0x0B || n = 0x0C || n = 0x0D || n = 0x20 || n = 0xA0 ||
  n = 0x1680 || (0x2000 ≤ n && n ≤ 0x200A) || n = 0x2028 || n = 0x2029 || n = 0x202F ||
  n = 0x205F || n = 0x3000 || n = 0xFEFF

/-- Value of a decimal digit string. -/
def digitsValue (cs : List Char) : Nat :=
  cs.foldl (fun acc c => acc * 10 + (c.toNat - '0'.toNat)) 0

/-- The exponent part `e[+-]ddd` at the head of `cs`, when it is complete. -/
def exponentPart : List Char → Option Int
  | c :: rest =>
    if c = 'e' ∨ c = 'E' then
      match rest with
      | '+' :: ds => if (ds.takeWhile Char.isDigit).isEmpty then none
                     else some (digitsValue (ds.takeWhile Char.isDigit))
      | '-' :: ds => if (ds.takeWhile Char.isDigit).isEmpty then none
                     else some (-(digitsValue (ds.takeWhile Char.isDigit) : Int))
      | ds => if (ds.takeWhile Char.isDigit).isEmpty then none
              else some (digitsValue (ds.takeWhile Char.isDigit))
    else none
  | [] => none

/-- The longest prefix of `cs` that is an unsigned StrDecimalLiteral, as a Number of sign `neg`;
`NaN` when there is none. -/
def parseUnsigned (neg : Bool) (cs : List Char) : F64 :=
  if "Infinity".data.isPrefixOf cs then .inf neg
  else
    let ip := cs.takeWhile Char.isDigit
    let rest := cs.dropWhile Char.isDigit
    let fp := match rest with
      | '.' :: t => t.takeWhile Char.isDigit
      | _ => []
    let rest2 := match rest with
      | '.' :: t => t.dropWhile Char.isDigit
      | _ => rest
    if ip.isEmpty ∧ fp.isEmpty then .nan
    else
      let ex : Int := (exponentPart rest2).getD 0
      let sc : Int := ex - fp.length
      F64.round neg (digitsValue (ip ++ fp) * 10 ^ sc.toNat) (10 ^ (-sc).toNat)

/-- JavaScript `parseFloat` on a string. -/
def parseFloat (s : String) : F64 :=
  match s.data.dropWhile isJsSpace with
  | '-' :: cs => parseUnsigned true cs
  | '+' :: cs => parseUnsigned false cs
  | cs => parseUnsigned false cs

/-- Value of a hexadecimal digit. -/
def hexDigit (c : Char) : Nat :=
  if c.isDigit then c.toNat - '0'.toNat
  else if 'a' ≤ c ∧ c ≤ 'f' then c.toNat - 'a'.toNat + 10
  else c.toNat - 'A'.toNat + 10

/-- Is `c` a hexadecimal digit? -/
def isHexDigit (c : Char) : Bool :=
  c.isDigit || ('a' ≤ c && c ≤ 'f') || ('A' ≤ c && c ≤ 'F')

/-- The integer prefix of `cs` (radix 16 after `0x`, else 10) with sign `neg`; `NaN` if empty. -/
def parseIntUnsigned (neg : Bool) (cs : List Char) : F64 :=
  match cs with
  | '0' :: 'x' :: hs | '0' :: 'X' :: hs =>
    if (hs.takeWhile isHexDigit).isEmpty then .nan
    else F64.round neg ((hs.takeWhile isHexDigit).foldl (fun acc c => acc * 16 + hexDigit c) 0) 1
  | _ =>
    if (cs.takeWhile Char.isDigit).isEmpty then .nan
    else F64.round neg (digitsValue (cs.takeWhile Char.isDigit)) 1

/-- JavaScript `parseInt` on a string, with no radix argument. -/
def parseInt (s : String) : F64 :=
  match s.data.dropWhile isJsSpace with
  | '-' :: cs => parseIntUnsigned true cs
  | '+' :: cs => parseIntUnsigned false cs
  | cs => parseIntUnsigned false cs

/-! ### String methods -/

/-- JavaScript `s.toLowerCase()` (ASCII letters). -/
def jsToLowerCase (s : String) : String := String.mk (s.data.map Char.toLower)

/-- JavaScript `s.endsWith(suffix)`. -/
def jsEndsWith (s suffix : String) : Bool := suffix.data.reverse.isPrefixOf s.data.reverse

/-- Remove the first occurrence of `pat` from `cs`. -/
def removeFirst (pat : List Char) : List Char → List Char
  | [] => []
  | c :: cs => if pat.isPrefixOf (c :: cs) then (c :: cs).drop pat.length
               else c :: removeFirst pat cs

/-- JavaScript `s.replace(pat, '')` for a string pattern: only the first occurrence goes. -/
def jsRemove (s pat : String) : String := String.mk (removeFirst pat.data s.data)

/-- JavaScript `s.trim()`. -/
def jsTrim (s : String) : String :=
  String.mk ((s.data.dropWhile isJsSpace).reverse.dropWhile isJsSpace).reverse

/-! ## The document -/

/-- One declaration of an inline style (`el.style`). -/
structure Decl where
  property : String
  value : String
  important : Bool
deriving DecidableEq, Repr

/-- Structure of the document below `document.body`.  Nodes are named by an identity `id`;
their mutable parts (text content, style attribute) live in the window state. -/
inductive Tree where
  | text (id : Nat)
  | element (id : Nat) (tagName : String) (childNodes : List Tree)
deriving Repr

mutual
/-- All element nodes of a subtree, in document order. -/
def Tree.elements : Tree → List Tree
  | .text _ => []
  | .element i t cs => .element i t cs :: Tree.elementsList cs
/-- All element nodes of a list of sibling subtrees, in document order. -/
def Tree.elementsList : List Tree → List Tree
  | [] => []
  | t :: ts => t.elements ++ Tree.elementsList ts
end

mutual
/-- Text nodes of a subtree in document order, each with the `tagName` of its parent. -/
def Tree.texts (parentTag : String) : Tree → List (Nat × String)
  | .text i => [(i, parentTag)]
  | .element _ t cs => Tree.textsList t cs
/-- Text nodes of a list of sibling subtrees whose parent has tag `parentTag`. -/
def Tree.textsList (parentTag : String) : List Tree → List (Nat × String)
  | [] => []
  | t :: ts => t.texts parentTag ++ Tree.textsList parentTag ts
end

/-- Identity of a node. -/
def Tree.id : Tree → Nat
  | .text i => i
  | .element i _ _ => i

/-- Is the node a text node (`nodeType === Node.TEXT_NODE`)? -/
def Tree.isText : Tree → Bool
  | .text _ => true
  | .element _ _ _ => false

/-- The values `getComputedStyle(el)` that the engine reads. -/
structure ComputedStyle where
  fontSize : String
  lineHeight : String
  letterSpacing : String
  display : String
deriving DecidableEq, Repr

/-- The entry of `window.liteReadOriginalStyles` for one element (content.js 152-159). -/
structure Snapshot where
  fontSize : String
  lineHeight : String
  letterSpacing : String
  display : String
  originalInlineStyle : Option String
deriving DecidableEq, Repr

/-- What the engine uses of its host: the computed style of an element (a function of the
document structure and of all inline styles), `CSS.supports(property, value)`, and
`pangu.spacing` when the pangu library is loaded. -/
structure Browser where
  getComputedStyle : Tree → (Nat → Option (List Decl)) → Nat → ComputedStyle
  supports : String → String → Bool
  pangu : Option (String → String)

/-- The record `window.liteReadState`. -/
structure OverlayState where
  fontSizeDelta : F64
  lineHeightDelta : F64
  letterSpacingDelta : F64
deriving DecidableEq, Repr

/-- The document together with the globals of content.js.  `style i` is the style attribute of
element `i` (`none`: no attribute), `nodeValue i` the content of text node `i`; `timers` are
the ids of the pending `setTimeout` callbacks scheduled by the mutation observer. -/
structure Window where
  body : Tree
  nodeValue : Nat → String
  style : Nat → Option (List Decl)
  panguMarker : Option String
  liteReadOriginalStyles : Nat → Option Snapshot
  liteReadPanguApplied : Bool
  liteReadStylesApplied : Bool
  liteReadState : OverlayState
  liteReadOriginalTextMap : Nat → Option String
  liteReadApplyTimeout : Option Nat
  timers : List Nat
  nextTimer : Nat

/-- The map `f` with the value at key `k` replaced by `v`. -/
def upd {α : Type} (f : Nat → α) (k : Nat) (v : α) : Nat → α :=
  fun x => if x = k then v else f x

/-! ### Inline style (CSSOM) -/

/-- Serialization of one declaration. -/
def Decl.text (d : Decl) : String :=
  d.property ++ ": " ++ d.value ++ (if d.important then " !important;" else ";")

/-- Serialization of a declaration block (`el.style.cssText`). -/
def cssText (ds : List Decl) : String := " ".intercalate (ds.map Decl.text)

/-- The text of the style attribute, `el.getAttribute('style')`; `none` is `null`. -/
def getAttributeStyle (st : Option (List Decl)) : Option String := st.map cssText

/-- The declaration of `property` in a style attribute, if any. -/
def getDecl (st : Option (List Decl)) (property : String) : Option Decl :=
  (st.getD []).find? (fun d => d.property = property)

/-- Set a declaration: replace the one of the same property in place, else append. -/
def setDecl : List Decl → Decl → List Decl
  | [], d => [d]
  | x :: xs, d => if x.property = d.property then d :: xs else x :: setDecl xs d

/-- CSSOM `el.style.removeProperty(property)`. -/
def removeProperty (st : Option (List Decl)) (property : String) : Option (List Decl) :=
  st.map (fun ds => ds.filter (fun d => d.property ≠ property))

/-- CSSOM `el.style.setProperty(property, value, priority)`: an empty value removes the
property; a priority other than `""` or `"important"`, or a value the browser does not accept
for the property, leaves the style untouched. -/
def setProperty (B : Browser) (st : Option (List Decl)) (property value priority : String) :
    Option (List Decl) :=
  if value = "" then removeProperty st property
  else if priority ≠ "" ∧ priority ≠ "important" then st
  else if B.supports property value = false then st
  else some (setDecl (st.getD []) ⟨property, value, decide (priority = "important")⟩)

/-! ## content.js -/

/-- Lines 111-114, `parsePx`. -/
def parsePx (str : String) : F64 :=
  if str = "" then F64.zero
  else
    let v := parseFloat (jsRemove str "px")
    if v.truthy then v else F64.zero

/-- Lines 117-124, `parseLineHeight`. -/
def parseLineHeight (str : String) (fontSize : F64) : F64 :=
  if str = "normal" then F64.mul fontSize (F64.lit 12 1)
  else if jsEndsWith str "px" then parseFloat (jsRemove str "px")
  else
    let val := parseFloat str
    if !val.isNaN then F64.mul fontSize val
    else F64.mul fontSize (F64.lit 12 1)

/-- The tag names of the selector of lines 133 and 216. -/
def selector : List String :=
  ["p", "span", "li", "a", "h1", "h2", "h3", "h4", "h5", "h6", "td", "th", "blockquote", "pre",
   "code", "div", "b", "strong", "i", "em", "mark", "small", "label", "markerow8"]

/-- Tag of a node (`""` for a text node). -/
def Tree.tagName : Tree → String
  | .text _ => ""
  | .element _ t _ => t

/-- Child nodes of a node. -/
def Tree.childNodes : Tree → List Tree
  | .text _ => []
  | .element _ _ cs => cs

/-- The call `document.querySelectorAll(selector)`: matching elements in document order. -/
def querySelectorAll (w : Window) : List Tree :=
  w.body.elements.filter (fun el => decide (jsToLowerCase el.tagName ∈ selector))

/-- Lines 138-147: does the forEach body go on for `el` (a `div` only with direct text)? -/
def isCandidate (w : Window) (el : Tree) : Bool :=
  if jsToLowerCase el.tagName = "div" then
    el.childNodes.any (fun c => c.isText && decide ((jsTrim (w.nodeValue c.id)).length > 0))
  else true

/-- Lines 151-159: the snapshot taken of element `i` in state `w`. -/
def snapshotOf (B : Browser) (w : Window) (i : Nat) : Snapshot :=
  let computed := B.getComputedStyle w.body w.style i
  { fontSize := computed.fontSize
    lineHeight := computed.lineHeight
    letterSpacing := computed.letterSpacing
    display := computed.display
    originalInlineStyle := getAttributeStyle (w.style i) }

/-- Lines 163-167: `newFs`. -/
def newFontSize (original : Snapshot) (fontSizeDelta : F64) : F64 :=
  F64.add (parsePx original.fontSize) fontSizeDelta

/-- Lines 172-175: `origLhPx + lineHeightDelta`, before the safety check. -/
def lineHeightSum (original : Snapshot) (lineHeightDelta : F64) : F64 :=
  F64.add (parseLineHeight original.lineHeight (parsePx original.fontSize)) lineHeightDelta

/-- Lines 172-178: `newLhPx` after the safety check. -/
def newLineHeight (original : Snapshot) (fontSizeDelta lineHeightDelta : F64) : F64 :=
  let newLhPx := lineHeightSum original lineHeightDelta
  if newLhPx.isNaN || F64.le newLhPx F64.zero then
    F64.mul (newFontSize original fontSizeDelta) (F64.lit 10 1)
  else newLhPx

/-- Lines 182-186: `newLs`. -/
def newLetterSpacing (original : Snapshot) (letterSpacingDelta : F64) : F64 :=
  let origLs := if original.letterSpacing ≠ "normal" then parsePx original.letterSpacing
                else F64.zero
  F64.add origLs letterSpacingDelta

/-- The template literal of lines 189-203, a number followed by `px`. -/
def px (x : F64) : String := x.toString ++ "px"

/-- Lines 189-203: the three writes to `el.style`. -/
def writeOverrides (B : Browser) (original : Snapshot)
    (fontSizeDelta lineHeightDelta letterSpacingDelta : F64) (st : Option (List Decl)) :
    Option (List Decl) :=
  let newFs := newFontSize original fontSizeDelta
  let newLhPx := newLineHeight original fontSizeDelta lineHeightDelta
  let newLs := newLetterSpacing original letterSpacingDelta
  let st1 := if F64.gt newFs F64.zero then setProperty B st "font-size" (px newFs) "important"
             else st
  let st2 := if F64.gt newLhPx F64.zero then
               setProperty B st1 "line-height" (px newLhPx) "important"
             else st1
  setProperty B st2 "letter-spacing" (px newLs) "important"

/-- Lines 136-206: the body of the forEach of `applyRelativeStyles` for one element. -/
def styleElement (B : Browser) (fontSizeDelta lineHeightDelta letterSpacingDelta : F64)
    (w : Window) (el : Tree) : Window :=
  if isCandidate w el = false then w
  else
    let original := match w.liteReadOriginalStyles el.id with
      | some o => o
      | none => snapshotOf B w el.id
    { w with
      liteReadOriginalStyles := upd w.liteReadOriginalStyles el.id (some original)
      style := upd w.style el.id
        (writeOverrides B original fontSizeDelta lineHeightDelta letterSpacingDelta
          (w.style el.id)) }

/-- Lines 127-209, `applyRelativeStyles`. -/
def applyRelativeStyles (B : Browser) (fontSizeDelta lineHeightDelta letterSpacingDelta : F64)
    (w : Window) : Window :=
  { (querySelectorAll w).foldl
      (styleElement B fontSizeDelta lineHeightDelta letterSpacingDelta) w with
    liteReadStylesApplied := true }

/-- Lines 220-236: the body of the forEach of `resetStyles` for one element. -/
def resetElement (w : Window) (el : Tree) : Window :=
  match w.liteReadOriginalStyles el.id with
  | none => w
  | some original =>
    let st := removeProperty (w.style el.id) "font-size"
    let st := removeProperty st "line-height"
    let st := removeProperty st "letter-spacing"
    let st := removeProperty st "height"
    let st := removeProperty st "min-height"
    let st := if original.originalInlineStyle = none ∨ original.originalInlineStyle = some ""
              then (if getAttributeStyle st = some "" then none else st)
              else st
    { w with style := upd w.style el.id st }

/-- Lines 212-240, `resetStyles`. -/
def resetStyles (w : Window) : Window :=
  if w.liteReadStylesApplied = false then w
  else { (querySelectorAll w).foldl resetElement w with liteReadStylesApplied := false }

/-- The text nodes a TreeWalker rooted at `document.body` visits with `SHOW_TEXT`. -/
def walkTexts (w : Window) : List (Nat × String) :=
  Tree.textsList w.body.tagName w.body.childNodes

/-- Lines 52-61: `acceptNode` of the walker of `applyPangu`. -/
def acceptNode (w : Window) (node : Nat × String) : Bool :=
  if jsToLowerCase node.2 ∈ ["script", "style", "textarea", "pre", "code"] then false
  else if jsTrim (w.nodeValue node.1) = "" then false
  else true

/-- Lines 71-82: the body of the forEach of `applyPangu` for one text node. -/
def spaceNode (spacing : String → String) (w : Window) (node : Nat × String) : Window :=
  let originalText := w.nodeValue node.1
  let newText := spacing originalText
  if originalText ≠ newText then
    { w with
      liteReadOriginalTextMap :=
        if (w.liteReadOriginalTextMap node.1).isNone then
          upd w.liteReadOriginalTextMap node.1 (some originalText)
        else w.liteReadOriginalTextMap
      nodeValue := upd w.nodeValue node.1 newText }
  else w

/-- Lines 40-85, `applyPangu`. -/
def applyPangu (B : Browser) (w : Window) : Window :=
  match B.pangu with
  | none => w
  | some spacing =>
    let nodesToUpdate := (walkTexts w).filter (acceptNode w)
    { nodesToUpdate.foldl (spaceNode spacing) w with liteReadPanguApplied := true }

/-- Lines 97-104: the body of the loop of `revertPangu` for one text node. -/
def revertNode (w : Window) (node : Nat × String) : Window :=
  match w.liteReadOriginalTextMap node.1 with
  | some originalText =>
    if w.nodeValue node.1 ≠ originalText then
      { w with nodeValue := upd w.nodeValue node.1 originalText }
    else w
  | none => w

/-- Lines 88-108, `revertPangu`. -/
def revertPangu (w : Window) : Window :=
  { (walkTexts w).foldl revertNode w with liteReadPanguApplied := false }

/-- Lines 246-248 and 282-284: the test `isDefault` on `window.liteReadState`. -/
def isDefault (s : OverlayState) : Bool :=
  F64.strictEq s.fontSizeDelta F64.zero &&
  F64.lt (F64.abs s.lineHeightDelta) (F64.lit 1 2) &&
  F64.lt (F64.abs s.letterSpacingDelta) (F64.lit 1 2)

/-- Lines 244-261: the MutationObserver callback. -/
def observerCallback (w : Window) : Window :=
  if !isDefault w.liteReadState then
    let pending := match w.liteReadApplyTimeout with
      | some t => if t ≠ 0 then w.timers.filter (fun x => x ≠ t) else w.timers
      | none => w.timers
    { w with
      liteReadApplyTimeout := some w.nextTimer
      timers := pending ++ [w.nextTimer]
      nextTimer := w.nextTimer + 1 }
  else w

/-- Lines 254-258: the callback passed to `setTimeout` by the observer. -/
def timeoutCallback (B : Browser) (w : Window) : Window :=
  applyRelativeStyles B w.liteReadState.fontSizeDelta w.liteReadState.lineHeightDelta
    w.liteReadState.letterSpacingDelta w

/-- Lines 286-294: the pangu part of `liteReadUpdateStyles`. -/
def handlePangu (B : Browser) (panguStatus : Option Bool) (w : Window) : Window :=
  match panguStatus with
  | none => w
  | some p =>
    let w1 := { w with panguMarker := some (if p then "true" else "false") }
    if p = true ∧ w1.liteReadPanguApplied = false then applyPangu B w1
    else if p = false ∧ w1.liteReadPanguApplied = true then revertPangu w1
    else w1

/-- Lines 271-305, `window.liteReadUpdateStyles`.  The three deltas arrive as the strings of the
popup's inputs, `panguStatus` as a boolean or `undefined` (`none`). -/
def liteReadUpdateStyles (B : Browser) (fontSizeDelta lineHeightDelta letterSpacingDelta : String)
    (panguStatus : Option Bool) (w : Window) : Window :=
  let w1 := { w with liteReadState :=
    { fontSizeDelta := parseInt fontSizeDelta
      lineHeightDelta := parseFloat lineHeightDelta
      letterSpacingDelta := parseFloat letterSpacingDelta } }
  let w2 := handlePangu B panguStatus w1
  if isDefault w1.liteReadState then resetStyles w2
  else applyRelativeStyles B w1.liteReadState.fontSizeDelta w1.liteReadState.lineHeightDelta
    w1.liteReadState.letterSpacingDelta w2

/-- An event of the page's event loop: the page changes the document (and the observer
callback runs), an `updateStyles` message arrives, or a pending timer fires. -/
inductive Event where
  | mutation (body : Tree)
  | updateStyles (fontSize lineHeight letterSpacing : String) (pangu : Option Bool)
  | timeout (id : Nat)

/-- One turn of the event loop. -/
def step (B : Browser) (w : Window) : Event → Window
  | .mutation body => observerCallback { w with body := body }
  | .updateStyles fs lh ls p => liteReadUpdateStyles B fs lh ls p w
  | .timeout t =>
    if t ∈ w.timers then timeoutCallback B { w with timers := w.timers.filter (fun x => x ≠ t) }
    else w

/-- Run a sequence of events. -/
def run (B : Browser) (w : Window) (events : List Event) : Window := events.foldl (step B) w

/-- Lines 11-37: the window right after content.js is injected into a page. -/
def freshWindow (body : Tree) (nodeValue : Nat → String) (style : Nat → Option (List Decl)) :
    Window :=
  { body := body
    nodeValue := nodeValue
    style := style
    panguMarker := none
    liteReadOriginalStyles := fun _ => none
    liteReadPanguApplied := false
    liteReadStylesApplied := false
    liteReadState := { fontSizeDelta := F64.zero, lineHeightDelta := F64.zero,
                       letterSpacingDelta := F64.zero }
    liteReadOriginalTextMap := fun _ => none
    liteReadApplyTimeout := none
    timers := []
    nextTimer := 1 }

/-! ## Sample host and pages -/

/-- Is `c` a CJK unified ideograph? -/
def isCJK (c : Char) : Bool := 0x4E00 ≤ c.toNat && c.toNat ≤ 0x9FFF

/-- A small segmentation: a space between an ideograph and an adjacent ASCII letter or digit. -/
def spaceChars : List Char → List Char
  | a :: b :: rest =>
    if (isCJK a && b.isAlphanum) || (a.isAlphanum && isCJK b) then
      a :: ' ' :: spaceChars (b :: rest)
    else a :: spaceChars (b :: rest)
  | cs => cs

/-- The sample segmentation on strings. -/
def sampleSpacing (s : String) : String := String.mk (spaceChars s.data)

/-- A host whose style sheet gives every element the three given values, an inline declaration
taking precedence; it accepts every value but the texts of `NaN` and the infinities. -/
def sheetBrowser (fontSize lineHeight letterSpacing : String) : Browser :=
  { getComputedStyle := fun _ style i =>
      { fontSize := ((getDecl (style i) "font-size").map Decl.value).getD fontSize
        lineHeight := ((getDecl (style i) "line-height").map Decl.value).getD lineHeight
        letterSpacing := ((getDecl (style i) "letter-spacing").map Decl.value).getD letterSpacing
        display := "block" }
    supports := fun _ v => decide (v ≠ "NaNpx" ∧ v ≠ "Infinitypx" ∧ v ≠ "-Infinitypx")
    pangu := some sampleSpacing }

/-- The sample host with the usual defaults: 16px text, normal line height and spacing. -/
def sampleHost : Browser := sheetBrowser "16px" "normal" "normal"

/-- The page `<body><p>中文abc</p><div><span>plain</span></div></body>`: ids 1 (p), 2 (its
text), 3 (div), 4 (span), 5 (its text). -/
def samplePage : Window :=
  freshWindow
    (.element 0 "BODY" [.element 1 "P" [.text 2], .element 3 "DIV" [.element 4 "SPAN" [.text 5]]])
    (fun i => if i = 2 then "中文abc" else if i = 5 then "plain" else "")
    (fun _ => none)

/-- The page `<body><p style="font-size: 12px; color: red">text</p></body>`: ids 1 (p), 2. -/
def inlinePage : Window :=
  freshWindow
    (.element 0 "BODY" [.element 1 "P" [.text 2]])
    (fun i => if i = 2 then "text" else "")
    (fun i => if i = 1 then some [⟨"font-size", "12px", false⟩, ⟨"color", "red", false⟩] else none)

/-- The page `<body><p>outer<span>inner</span></p></body>`: ids 1 (p), 2 (its text), 3 (span),
4 (its text). -/
def nestedPage : Window :=
  freshWindow
    (.element 0 "BODY" [.element 1 "P" [.text 2, .element 3 "SPAN" [.text 4]]])
    (fun i => if i = 2 then "outer" else if i = 4 then "inner" else "")
    (fun _ => none)

/-- A host for `nestedPage` with inheritance of the font size: the span 3 without an inline
font-size has the font size of the paragraph 1; the defaults are those of `sampleHost`. -/
def inheritingHost : Browser :=
  { getComputedStyle := fun body style i =>
      if i = 3 ∧ getDecl (style 3) "font-size" = none then
        { sampleHost.getComputedStyle body style 3 with
          fontSize := (sampleHost.getComputedStyle body style 1).fontSize }
      else sampleHost.getComputedStyle body style i
    supports := sampleHost.supports
    pangu := sampleHost.pangu }

/-! ## Auxiliary notions used to state the properties -/

/-- The state in which the forEach of `applyRelativeStyles`, started in `w` on the elements
`l`, first reaches a candidate element of identity `i` (the final state if it never does). -/
def stateBefore (B : Browser) (a b c : F64) : Window → List Tree → Nat → Window
  | w, [], _ => w
  | w, el :: rest, i =>
    if isCandidate w el = true ∧ el.id = i then w
    else stateBefore B a b c (styleElement B a b c w el) rest i

/-- The snapshot the forEach of `applyRelativeStyles` works with for element `i`: the stored
one, or else the one captured when the element is first reached. -/
def snapshotUsed (B : Browser) (a b c : F64) (w : Window) (l : List Tree) (i : Nat) : Snapshot :=
  match w.liteReadOriginalStyles i with
  | some o => o
  | none => snapshotOf B (stateBefore B a b c w l i) i

/-- What holds of a text node while `applyPangu` runs from a state `w0` with an empty text
store: it is untouched and has no snapshot, or its snapshot is its original text, which the
segmentation changes, and the walker visits it. -/
def PanguInv (spacing : String → String) (w0 : Window) (l : List (Nat × String)) (w : Window) :
    Prop :=
  w.body = w0.body ∧
  ∀ i, (w.liteReadOriginalTextMap i = none ∧ w.nodeValue i = w0.nodeValue i) ∨
       (w.liteReadOriginalTextMap i = some (w0.nodeValue i) ∧
         spacing (w0.nodeValue i) ≠ w0.nodeValue i ∧ ∃ node ∈ l, node.1 = i)

/-- The inline properties `resetStyles` removes (lines 224-228). -/
def engineProperties : List String :=
  ["font-size", "line-height", "letter-spacing", "height", "min-height"]

/-- Lines 224-235: the style attribute `resetStyles` leaves on an element with snapshot
`original` whose style attribute is `st`. -/
def resetStyleOf (original : Snapshot) (st : Option (List Decl)) : Option (List Decl) :=
  let st := removeProperty st "font-size"
  let st := removeProperty st "line-height"
  let st := removeProperty st "letter-spacing"
  let st := removeProperty st "height"
  let st := removeProperty st "min-height"
  if original.originalInlineStyle = none ∨ original.originalInlineStyle = some ""
  then (if getAttributeStyle st = some "" then none else st)
  else st

/-- A declaration list without the properties `resetStyles` removes. -/
def stripEngine (ds : List Decl) : List Decl :=
  ds.filter (fun d => decide (d.property ∉ engineProperties))

/-- Is `s` the text of an unsigned decimal number with no unit: digits with at most one decimal
point, starting with a digit? -/
def isUnitlessNumber (s : String) : Bool :=
  s.data.all (fun c => c.isDigit || c == '.') && (s.data.head?.map Char.isDigit == some true) &&
  decide (s.data.count '.' ≤ 1)

/-- Does `s`, after leading white space, start with nothing `parseFloat` can read: no digit,
sign, decimal point, or `I` of `Infinity`? -/
def readsNoNumber (s : String) : Bool :=
  match s.data.dropWhile isJsSpace with
  | [] => true
  | c :: _ => !(c.isDigit || c == '+' || c == '-' || c == '.' || c == 'I')

/-! ## Properties -/

theorem px_ne_empty (x : F64) : px x ≠ "" := by
  intro h
  have h2 := congrArg String.length h
  simp only [px, String.length_append] at h2
  have h3 : "px".length = 2 := by decide
  have h4 : "".length = 0 := by decide
  omega

theorem setProperty_important (B : Browser) (st : Option (List Decl)) (p v : String)
    (hv : v ≠ "") :
    setProperty B st p v "important" =
      if B.supports p v = false then st else some (setDecl (st.getD []) ⟨p, v, true⟩) := by
  simp [setProperty, hv]

theorem setDecl_self (l : List Decl) (d : Decl) : setDecl (setDecl l d) d = setDecl l d := by
  induction l with
  | nil => simp [setDecl]
  | cons x xs ih =>
    by_cases h : x.property = d.property
    · simp [setDecl, h]
    · simp [setDecl, h, ih]

theorem setDecl_fix_other (l : List Decl) (d e : Decl) (hne : d.property ≠ e.property)
    (hfix : setDecl l d = l) : setDecl (setDecl l e) d = setDecl l e := by
  induction l with
  | nil => simp [setDecl] at hfix
  | cons x xs ih =>
    by_cases hd : x.property = d.property
    · have hxe : x.property ≠ e.property := fun h => hne (hd.symm.trans h)
      simp only [setDecl, hd, if_true] at hfix
      have hx : d = x := (List.cons.inj hfix).1
      subst hx
      simp [setDecl, hxe]
    · simp only [setDecl, hd, if_false] at hfix
      have hxs : setDecl xs d = xs := (List.cons.inj hfix).2
      by_cases he : x.property = e.property
      · have hed : e.property ≠ d.property := fun h => hne h.symm
        simp [setDecl, he, hed, hxs]
      · simp [setDecl, he, hd, ih hxs]

theorem setProperty_self (B : Browser) (st : Option (List Decl)) (p v : String) (hv : v ≠ "") :
    setProperty B (setProperty B st p v "important") p v "important" =
      setProperty B st p v "important" := by
  rw [setProperty_important B st p v hv]
  by_cases hs : B.supports p v = false
  · simp [hs, setProperty_important B st p v hv]
  · simp [hs, setProperty_important B _ p v hv, setDecl_self]

theorem setProperty_fix_other (B : Browser) (st : Option (List Decl)) (p v q u : String)
    (hv : v ≠ "") (hu : u ≠ "") (hpq : p ≠ q)
    (hfix : setProperty B st p v "important" = st) :
    setProperty B (setProperty B st q u "important") p v "important" =
      setProperty B st q u "important" := by
  rw [setProperty_important B st q u hu]
  by_cases hq : B.supports q u = false
  · simpa [hq] using hfix
  · rw [setProperty_important B st p v hv] at hfix
    rw [setProperty_important B _ p v hv]
    cases hp : B.supports p v with
    | false => simp
    | true =>
      simp only [hp, hq, if_false] at hfix ⊢
      cases st with
      | none => simp at hfix
      | some l =>
        simp only [Option.getD_some, Bool.true_eq_false, if_false, Option.some.injEq] at hfix ⊢
        exact setDecl_fix_other l ⟨p, v, true⟩ ⟨q, u, true⟩ hpq hfix

theorem writeOverrides_idem (B : Browser) (o : Snapshot) (a b c : F64)
    (st : Option (List Decl)) :
    writeOverrides B o a b c (writeOverrides B o a b c st) = writeOverrides B o a b c st := by
  have n1 : ("font-size" : String) ≠ "line-height" := by decide
  have n2 : ("font-size" : String) ≠ "letter-spacing" := by decide
  have n3 : ("line-height" : String) ≠ "letter-spacing" := by decide
  have e1 := px_ne_empty (newFontSize o a)
  have e2 := px_ne_empty (newLineHeight o a b)
  have e3 := px_ne_empty (newLetterSpacing o c)
  unfold writeOverrides
  simp only []
  generalize F64.gt (newFontSize o a) F64.zero = g1
  generalize F64.gt (newLineHeight o a b) F64.zero = g2
  cases g1 <;> cases g2 <;> simp only [if_true, if_false, Bool.false_eq_true]
  · rw [setProperty_self B _ _ _ e3]
  · rw [setProperty_fix_other B _ _ _ _ _ e2 e3 n3 (setProperty_self B _ _ _ e2),
      setProperty_self B _ _ _ e3]
  · rw [setProperty_fix_other B _ _ _ _ _ e1 e3 n2 (setProperty_self B _ _ _ e1),
      setProperty_self B _ _ _ e3]
  · rw [setProperty_fix_other B _ _ _ _ _ e1 e3 n2
        (setProperty_fix_other B _ _ _ _ _ e1 e2 n1 (setProperty_self B _ _ _ e1)),
      setProperty_fix_other B _ _ _ _ _ e2 e3 n3 (setProperty_self B _ _ _ e2),
      setProperty_self B _ _ _ e3]

theorem upd_same {α : Type} (f : Nat → α) (k : Nat) (v : α) : upd f k v k = v := by
  simp [upd]

theorem upd_other {α : Type} (f : Nat → α) (k j : Nat) (v : α) (h : j ≠ k) :
    upd f k v j = f j := by
  simp [upd, h]

theorem upd_self {α : Type} (f : Nat → α) (k : Nat) : upd f k (f k) = f := by
  funext x
  by_cases h : x = k
  · simp [upd, h]
  · simp [upd, h]

theorem isCandidate_congr (w1 w2 : Window) (el : Tree) (h : w1.nodeValue = w2.nodeValue) :
    isCandidate w1 el = isCandidate w2 el := by
  simp [isCandidate, h]

theorem styleElement_nodeValue (B : Browser) (a b c : F64) (w : Window) (el : Tree) :
    (styleElement B a b c w el).nodeValue = w.nodeValue := by
  unfold styleElement
  split <;> rfl

theorem styleElement_body (B : Browser) (a b c : F64) (w : Window) (el : Tree) :
    (styleElement B a b c w el).body = w.body := by
  unfold styleElement
  split <;> rfl

theorem styleElement_style_other (B : Browser) (a b c : F64) (w : Window) (el : Tree) (i : Nat)
    (h : isCandidate w el = true → el.id ≠ i) :
    (styleElement B a b c w el).style i = w.style i := by
  unfold styleElement
  split
  · rfl
  · next hc =>
    have hc2 : isCandidate w el = true := by simpa using hc
    exact upd_other _ _ _ _ (fun e => h hc2 e.symm)

theorem styleElement_store_other (B : Browser) (a b c : F64) (w : Window) (el : Tree) (i : Nat)
    (h : isCandidate w el = true → el.id ≠ i) :
    (styleElement B a b c w el).liteReadOriginalStyles i = w.liteReadOriginalStyles i := by
  unfold styleElement
  split
  · rfl
  · next hc =>
    have hc2 : isCandidate w el = true := by simpa using hc
    exact upd_other _ _ _ _ (fun e => h hc2 e.symm)

theorem styleElement_candidate (B : Browser) (a b c : F64) (w : Window) (el : Tree)
    (h : isCandidate w el = true) :
    (styleElement B a b c w el).liteReadOriginalStyles el.id =
        some (snapshotUsed B a b c w [el] el.id) ∧
      (styleElement B a b c w el).style el.id =
        writeOverrides B (snapshotUsed B a b c w [el] el.id) a b c (w.style el.id) := by
  unfold styleElement snapshotUsed
  simp only [h, Bool.true_eq_false, if_false, upd_same, stateBefore, and_self, if_true]

/-- Frame of one pass: an identity that is no candidate of the list keeps its style attribute
and its snapshot entry. -/
theorem pass_frame (B : Browser) (a b c : F64) (l : List Tree) :
    ∀ (w : Window) (i : Nat), (∀ el ∈ l, isCandidate w el = true → el.id ≠ i) →
      (l.foldl (styleElement B a b c) w).style i = w.style i ∧
      (l.foldl (styleElement B a b c) w).liteReadOriginalStyles i =
        w.liteReadOriginalStyles i := by
  induction l with
  | nil => intro w i _; exact ⟨rfl, rfl⟩
  | cons el rest ih =>
    intro w i h
    have h1 := h el (List.mem_cons_self _ _)
    have h2 : ∀ x ∈ rest, isCandidate (styleElement B a b c w el) x = true → x.id ≠ i := by
      intro x hx hc
      rw [isCandidate_congr _ w x (styleElement_nodeValue B a b c w el)] at hc
      exact h x (List.mem_cons_of_mem _ hx) hc
    have := ih (styleElement B a b c w el) i h2
    simp only [List.foldl_cons]
    rw [this.1, this.2]
    exact ⟨styleElement_style_other B a b c w el i h1, styleElement_store_other B a b c w el i h1⟩

/-- Effect of one pass on a candidate: its snapshot entry is the one used, and its style
attribute is the original one with the overrides computed from that snapshot. -/
theorem pass_spec (B : Browser) (a b c : F64) (l : List Tree) :
    ∀ (w : Window) (i : Nat), (∃ el ∈ l, isCandidate w el = true ∧ el.id = i) →
      (l.foldl (styleElement B a b c) w).liteReadOriginalStyles i =
        some (snapshotUsed B a b c w l i) ∧
      (l.foldl (styleElement B a b c) w).style i =
        writeOverrides B (snapshotUsed B a b c w l i) a b c (w.style i) := by
  induction l with
  | nil => intro w i h; obtain ⟨el, hel, _⟩ := h; cases hel
  | cons el rest ih =>
    intro w i h
    simp only [List.foldl_cons]
    have hnv := styleElement_nodeValue B a b c w el
    by_cases hhead : isCandidate w el = true ∧ el.id = i
    · obtain ⟨hc, hid⟩ := hhead
      subst hid
      have hstep := styleElement_candidate B a b c w el hc
      have hsnap : snapshotUsed B a b c w (el :: rest) el.id = snapshotUsed B a b c w [el] el.id := by
        simp [snapshotUsed, stateBefore, hc]
      rw [hsnap]
      by_cases hrest : ∃ x ∈ rest, isCandidate (styleElement B a b c w el) x = true ∧ x.id = el.id
      · have := ih (styleElement B a b c w el) el.id hrest
        have hs2 : snapshotUsed B a b c (styleElement B a b c w el) rest el.id =
            snapshotUsed B a b c w [el] el.id := by
          simp only [snapshotUsed, hstep.1]
        rw [hs2] at this
        rw [this.1, this.2, hstep.2, writeOverrides_idem]
        exact ⟨rfl, rfl⟩
      · have hfr := pass_frame B a b c rest (styleElement B a b c w el) el.id (by
          intro x hx hcx hid
          exact hrest ⟨x, hx, hcx, hid⟩)
        rw [hfr.1, hfr.2]
        exact hstep
    · have hne : isCandidate w el = true → el.id ≠ i := fun hc hid => hhead ⟨hc, hid⟩
      have hrest : ∃ x ∈ rest, isCandidate (styleElement B a b c w el) x = true ∧ x.id = i := by
        obtain ⟨x, hx, hcx, hid⟩ := h
        rcases List.mem_cons.1 hx with rfl | hx
        · exact absurd ⟨hcx, hid⟩ hhead
        · exact ⟨x, hx, by rw [isCandidate_congr _ w x hnv]; exact hcx, hid⟩
      have := ih (styleElement B a b c w el) i hrest
      have hs2 : snapshotUsed B a b c (styleElement B a b c w el) rest i =
          snapshotUsed B a b c w (el :: rest) i := by
        simp only [snapshotUsed, stateBefore, hhead, if_false,
          styleElement_store_other B a b c w el i hne]
      rw [this.1, this.2, hs2, styleElement_style_other B a b c w el i hne]
      exact ⟨rfl, rfl⟩

theorem foldl_fixed {α β : Type} (f : α → β → α) (l : List β) (w : α)
    (h : ∀ x ∈ l, f w x = w) : l.foldl f w = w := by
  induction l with
  | nil => rfl
  | cons x xs ih =>
    simp only [List.foldl_cons]
    rw [h x (List.mem_cons_self _ _)]
    exact ih (fun y hy => h y (List.mem_cons_of_mem _ hy))

theorem pass_nodeValue (B : Browser) (a b c : F64) (l : List Tree) (w : Window) :
    (l.foldl (styleElement B a b c) w).nodeValue = w.nodeValue := by
  induction l generalizing w with
  | nil => rfl
  | cons x xs ih => simp only [List.foldl_cons]; rw [ih, styleElement_nodeValue]

theorem pass_body (B : Browser) (a b c : F64) (l : List Tree) (w : Window) :
    (l.foldl (styleElement B a b c) w).body = w.body := by
  induction l generalizing w with
  | nil => rfl
  | cons x xs ih => simp only [List.foldl_cons]; rw [ih, styleElement_body]

theorem applyRelativeStyles_body (B : Browser) (a b c : F64) (w : Window) :
    (applyRelativeStyles B a b c w).body = w.body := pass_body B a b c _ w

theorem applyRelativeStyles_nodeValue (B : Browser) (a b c : F64) (w : Window) :
    (applyRelativeStyles B a b c w).nodeValue = w.nodeValue := pass_nodeValue B a b c _ w

theorem querySelectorAll_congr (w1 w2 : Window) (h : w1.body = w2.body) :
    querySelectorAll w1 = querySelectorAll w2 := by
  simp [querySelectorAll, h]

/-- A second pass with the same deltas finds every write already in place: the whole window
state is unchanged. -/
theorem applyRelativeStyles_idem (B : Browser) (a b c : F64) (w : Window) :
    applyRelativeStyles B a b c (applyRelativeStyles B a b c w) = applyRelativeStyles B a b c w := by
  have hq : querySelectorAll (applyRelativeStyles B a b c w) = querySelectorAll w :=
    querySelectorAll_congr _ _ (applyRelativeStyles_body B a b c w)
  have hfix : ∀ el ∈ querySelectorAll w,
      styleElement B a b c (applyRelativeStyles B a b c w) el = applyRelativeStyles B a b c w := by
    intro el hel
    have hcand : isCandidate (applyRelativeStyles B a b c w) el = isCandidate w el :=
      isCandidate_congr _ _ el (applyRelativeStyles_nodeValue B a b c w)
    cases hc : isCandidate w el with
    | false => simp [styleElement, hcand, hc]
    | true =>
      have hp := pass_spec B a b c (querySelectorAll w) w el.id ⟨el, hel, hc, rfl⟩
      have hs : (applyRelativeStyles B a b c w).liteReadOriginalStyles el.id =
          some (snapshotUsed B a b c w (querySelectorAll w) el.id) := hp.1
      have ht : (applyRelativeStyles B a b c w).style el.id =
          writeOverrides B (snapshotUsed B a b c w (querySelectorAll w) el.id) a b c
            (w.style el.id) := hp.2
      unfold styleElement
      simp only [hcand, hc, Bool.true_eq_false, if_false, hs]
      rw [ht, writeOverrides_idem, ← ht, ← hs, upd_self, upd_self]
  unfold applyRelativeStyles at hfix ⊢
  rw [show querySelectorAll
        { (querySelectorAll w).foldl (styleElement B a b c) w with liteReadStylesApplied := true }
      = querySelectorAll w from hq]
  rw [foldl_fixed _ _ _ hfix]

/-- C1: calling `applyRelativeStyles` a second time with the same three deltas, with no reset
and no document change in between, leaves the style attribute of every element, and hence its
inline style text, exactly as it was after the first call. -/
theorem applyRelativeStyles_twice_same_style (B : Browser)
    (fontSizeDelta lineHeightDelta letterSpacingDelta : F64) (w : Window) (el : Nat) :
    (applyRelativeStyles B fontSizeDelta lineHeightDelta letterSpacingDelta
        (applyRelativeStyles B fontSizeDelta lineHeightDelta letterSpacingDelta w)).style el =
      (applyRelativeStyles B fontSizeDelta lineHeightDelta letterSpacingDelta w).style el ∧
    getAttributeStyle
      ((applyRelativeStyles B fontSizeDelta lineHeightDelta letterSpacingDelta
        (applyRelativeStyles B fontSizeDelta lineHeightDelta letterSpacingDelta w)).style el) =
      getAttributeStyle
        ((applyRelativeStyles B fontSizeDelta lineHeightDelta letterSpacingDelta w).style el) := by
  rw [applyRelativeStyles_idem]
  exact ⟨rfl, rfl⟩

theorem foldl_invariant {α β : Type} (P : α → Prop) (f : α → β → α) (l : List β) (w : α)
    (h0 : P w) (hstep : ∀ w x, x ∈ l → P w → P (f w x)) : P (l.foldl f w) := by
  induction l generalizing w with
  | nil => exact h0
  | cons x xs ih =>
    simp only [List.foldl_cons]
    exact ih (f w x) (hstep w x (List.mem_cons_self _ _) h0)
      (fun w y hy hw => hstep w y (List.mem_cons_of_mem _ hy) hw)

theorem spaceNode_inv (spacing : String → String) (w0 : Window) (l : List (Nat × String))
    (w : Window) (node : Nat × String) (hn : node ∈ l) (h : PanguInv spacing w0 l w) :
    PanguInv spacing w0 l (spaceNode spacing w node) := by
  obtain ⟨hb, hi⟩ := h
  unfold spaceNode
  by_cases hch : w.nodeValue node.1 ≠ spacing (w.nodeValue node.1)
  · rw [if_pos hch]
    refine ⟨hb, fun i => ?_⟩
    by_cases hij : i = node.1
    · rw [hij]
      rcases hi node.1 with ⟨hm, hv⟩ | ⟨hm, hs, hex⟩
      · right
        rw [hv] at hch
        refine ⟨?_, fun e => hch e.symm, ⟨node, hn, rfl⟩⟩
        simp only [hm, Option.isNone_none, if_true, upd_same, hv]
      · right
        refine ⟨?_, hs, hex⟩
        simp only [hm, Option.isNone_some, Bool.false_eq_true, if_false]
    · have hm : (if (w.liteReadOriginalTextMap node.1).isNone = true then
            upd w.liteReadOriginalTextMap node.1 (some (w.nodeValue node.1))
          else w.liteReadOriginalTextMap) i = w.liteReadOriginalTextMap i := by
        split
        · exact upd_other _ _ _ _ hij
        · rfl
      simp only [hm, upd_other _ _ _ _ hij]
      exact hi i
  · rw [if_neg hch]
    exact ⟨hb, hi⟩

theorem revertNode_map (w : Window) (node : Nat × String) :
    (revertNode w node).liteReadOriginalTextMap = w.liteReadOriginalTextMap ∧
    (revertNode w node).body = w.body := by
  unfold revertNode
  split
  · split <;> exact ⟨rfl, rfl⟩
  · exact ⟨rfl, rfl⟩

theorem revertNode_value (w : Window) (node : Nat × String) (i : Nat) :
    (revertNode w node).nodeValue i =
      if node.1 = i then (w.liteReadOriginalTextMap i).getD (w.nodeValue i)
      else w.nodeValue i := by
  unfold revertNode
  by_cases hij : node.1 = i
  · subst hij
    cases hm : w.liteReadOriginalTextMap node.1 with
    | none => simp
    | some o =>
      by_cases hv : w.nodeValue node.1 = o
      · simp [hv]
      · simp [hv, upd_same]
  · cases hm : w.liteReadOriginalTextMap node.1 with
    | none => simp [hij]
    | some o =>
      by_cases hv : w.nodeValue node.1 = o
      · simp [hv, hij]
      · simp [hv, hij, upd_other _ _ _ _ (fun e => hij e.symm)]

/-- The loop of `revertPangu`: the text store is untouched; a visited node ends with its
snapshot if it has one; every other node keeps its content. -/
theorem revert_fold (l : List (Nat × String)) :
    ∀ (w : Window) (i : Nat),
      (l.foldl revertNode w).liteReadOriginalTextMap = w.liteReadOriginalTextMap ∧
      ((∃ node ∈ l, node.1 = i) →
        (l.foldl revertNode w).nodeValue i = (w.liteReadOriginalTextMap i).getD (w.nodeValue i)) ∧
      ((∀ node ∈ l, node.1 ≠ i) → (l.foldl revertNode w).nodeValue i = w.nodeValue i) := by
  induction l with
  | nil =>
    intro w i
    refine ⟨rfl, ?_, fun _ => rfl⟩
    intro h
    obtain ⟨n, hn, _⟩ := h
    cases hn
  | cons x xs ih =>
    intro w i
    simp only [List.foldl_cons]
    obtain ⟨h1, h2, h3⟩ := ih (revertNode w x) i
    have hm := (revertNode_map w x).1
    have hv := revertNode_value w x i
    refine ⟨h1.trans hm, ?_, ?_⟩
    · intro hex
      by_cases hin : ∃ node ∈ xs, node.1 = i
      · rw [h2 hin, hm, hv]
        by_cases hx : x.1 = i
        · simp only [hx, if_true]
          cases w.liteReadOriginalTextMap i <;> rfl
        · simp only [hx, if_false]
      · have hx : x.1 = i := by
          obtain ⟨n, hn, hni⟩ := hex
          rcases List.mem_cons.1 hn with rfl | hn
          · exact hni
          · exact absurd ⟨n, hn, hni⟩ hin
        rw [h3 (fun n hn e => hin ⟨n, hn, e⟩), hv]
        simp only [hx, if_true]
    · intro hall
      rw [h3 (fun n hn => hall n (List.mem_cons_of_mem _ hn)), hv]
      simp only [hall x (List.mem_cons_self _ _), if_false]

theorem applyPangu_inv (B : Browser) (spacing : String → String) (w : Window)
    (hB : B.pangu = some spacing) (hempty : ∀ i, w.liteReadOriginalTextMap i = none) :
    PanguInv spacing w ((walkTexts w).filter (acceptNode w)) (applyPangu B w) := by
  unfold applyPangu
  simp only [hB]
  have := foldl_invariant (PanguInv spacing w ((walkTexts w).filter (acceptNode w)))
    (spaceNode spacing) ((walkTexts w).filter (acceptNode w)) w
    ⟨rfl, fun i => Or.inl ⟨hempty i, rfl⟩⟩
    (fun w1 x hx h => spaceNode_inv spacing w _ w1 x hx h)
  exact this

/-- C3: starting from an empty text snapshot store, `applyPangu` followed by `revertPangu`
leaves the content of every text node as it was before `applyPangu`, for every document and
every segmentation function (or none loaded); a node that `applyPangu` changed has exactly its
original string as snapshot, and a node whose text the segmentation leaves unchanged is not
written and gets no snapshot. -/
theorem applyPangu_then_revertPangu (B : Browser) (w : Window)
    (hempty : ∀ i, w.liteReadOriginalTextMap i = none) :
    (∀ i, (revertPangu (applyPangu B w)).nodeValue i = w.nodeValue i) ∧
    (∀ i, (applyPangu B w).nodeValue i ≠ w.nodeValue i →
      (applyPangu B w).liteReadOriginalTextMap i = some (w.nodeValue i)) ∧
    (∀ i spacing, B.pangu = some spacing → spacing (w.nodeValue i) = w.nodeValue i →
      (applyPangu B w).nodeValue i = w.nodeValue i ∧
      (applyPangu B w).liteReadOriginalTextMap i = none) := by
  cases hB : B.pangu with
  | none =>
    have hid : applyPangu B w = w := by simp [applyPangu, hB]
    rw [hid]
    refine ⟨fun i => ?_, fun i h => absurd rfl h, fun i s hs => by cases hs⟩
    have := (revert_fold (walkTexts w) w i)
    by_cases hin : ∃ node ∈ walkTexts w, node.1 = i
    · have h2 := this.2.1 hin
      rw [hempty i] at h2
      exact h2
    · exact this.2.2 (fun n hn e => hin ⟨n, hn, e⟩)
  | some spacing =>
    obtain ⟨hb, hinv⟩ := applyPangu_inv B spacing w hB hempty
    refine ⟨fun i => ?_, fun i hne => ?_, fun i s hs hfix => ?_⟩
    · have hwalk : walkTexts (applyPangu B w) = walkTexts w := by simp [walkTexts, hb]
      have := revert_fold (walkTexts w) (applyPangu B w) i
      show ((walkTexts (applyPangu B w)).foldl revertNode (applyPangu B w)).nodeValue i = _
      rw [hwalk]
      rcases hinv i with ⟨hm, hv⟩ | ⟨hm, _, n, hn, hni⟩
      · by_cases hin : ∃ node ∈ walkTexts w, node.1 = i
        · rw [this.2.1 hin, hm]; exact hv
        · rw [this.2.2 (fun n hn e => hin ⟨n, hn, e⟩)]; exact hv
      · rw [this.2.1 ⟨n, (List.mem_filter.1 hn).1, hni⟩, hm]; rfl
    · rcases hinv i with ⟨_, hv⟩ | ⟨hm, _, _⟩
      · exact absurd hv hne
      · exact hm
    · have hs2 : s = spacing := by cases hs; rfl
      subst hs2
      rcases hinv i with ⟨hm, hv⟩ | ⟨_, hch, _⟩
      · exact ⟨hv, hm⟩
      · exact absurd hfix hch

theorem scaled_zero (x e : Int) : F64.scaled false 0 x e = 0 := by
  simp [F64.scaled]

/-- A number `> 0` is not `NaN` and not `<= 0`. -/
theorem gt_zero_not_le (x : F64) (h : F64.gt x F64.zero = true) :
    x.isNaN = false ∧ F64.le x F64.zero = false := by
  cases x with
  | nan => simp [F64.gt, F64.lt, F64.zero] at h
  | inf s =>
    cases s
    · simp [F64.isNaN, F64.le, F64.lt, F64.strictEq, F64.zero]
    · simp [F64.gt, F64.lt, F64.zero] at h
  | fin s m e =>
    simp only [F64.gt, F64.lt, F64.zero, scaled_zero, decide_eq_true_eq] at h
    rw [min_comm] at h
    simp only [F64.isNaN, F64.le, F64.lt, F64.strictEq, F64.zero, scaled_zero, true_and,
      Bool.or_eq_false_iff, decide_eq_false_iff_not]
    omega

theorem find_setDecl (l : List Decl) (d : Decl) (q : String) :
    (setDecl l d).find? (fun x => x.property = q) =
      if d.property = q then some d else l.find? (fun x => x.property = q) := by
  induction l with
  | nil =>
    by_cases h : d.property = q <;> simp [setDecl, List.find?, h]
  | cons x xs ih =>
    by_cases hx : x.property = d.property
    · by_cases h : d.property = q
      · simp [setDecl, hx, List.find?, h]
      · have hxq : ¬ x.property = q := fun e => h (hx.symm.trans e)
        simp [setDecl, hx, List.find?, h]
    · by_cases hxq : x.property = q
      · have h : ¬ d.property = q := fun e => hx (hxq.trans e.symm)
        have h2 : ¬ q = d.property := fun e => h e.symm
        simp only [setDecl, hx, if_false, h]
        simp [List.find?, hxq]
      · simp [setDecl, hx, List.find?, hxq, ih]

/-- Reading a declaration back after `setProperty` with `important` priority. -/
theorem getDecl_setProperty (B : Browser) (st : Option (List Decl)) (p v q : String)
    (hv : v ≠ "") :
    getDecl (setProperty B st p v "important") q =
      if p = q ∧ B.supports p v = true then some ⟨p, v, true⟩ else getDecl st q := by
  rw [setProperty_important B st p v hv]
  cases hs : B.supports p v with
  | false => simp
  | true =>
    simp only [Bool.true_eq_false, if_false, getDecl, Option.getD_some, find_setDecl, and_true]

/-- The declarations an element carries after the three writes of lines 189-203. -/
theorem getDecl_writeOverrides (B : Browser) (o : Snapshot) (a b c : F64)
    (st : Option (List Decl)) :
    getDecl (writeOverrides B o a b c st) "font-size" =
      (if F64.gt (newFontSize o a) F64.zero = true ∧
          B.supports "font-size" (px (newFontSize o a)) = true
        then some ⟨"font-size", px (newFontSize o a), true⟩ else getDecl st "font-size") ∧
    getDecl (writeOverrides B o a b c st) "line-height" =
      (if F64.gt (newLineHeight o a b) F64.zero = true ∧
          B.supports "line-height" (px (newLineHeight o a b)) = true
        then some ⟨"line-height", px (newLineHeight o a b), true⟩
        else getDecl st "line-height") ∧
    getDecl (writeOverrides B o a b c st) "letter-spacing" =
      (if B.supports "letter-spacing" (px (newLetterSpacing o c)) = true
        then some ⟨"letter-spacing", px (newLetterSpacing o c), true⟩
        else getDecl st "letter-spacing") := by
  have n1 : ¬ ("letter-spacing" : String) = "font-size" := by decide
  have n2 : ¬ ("letter-spacing" : String) = "line-height" := by decide
  have n3 : ¬ ("line-height" : String) = "font-size" := by decide
  have n4 : ¬ ("font-size" : String) = "line-height" := by decide
  have n5 : ¬ ("font-size" : String) = "letter-spacing" := by decide
  have n6 : ¬ ("line-height" : String) = "letter-spacing" := by decide
  have e1 := px_ne_empty (newFontSize o a)
  have e2 := px_ne_empty (newLineHeight o a b)
  have e3 := px_ne_empty (newLetterSpacing o c)
  unfold writeOverrides
  simp only []
  generalize F64.gt (newFontSize o a) F64.zero = g1
  generalize F64.gt (newLineHeight o a b) F64.zero = g2
  cases g1 <;> cases g2 <;>
    simp only [if_true, if_false, Bool.false_eq_true, false_and, true_and,
      getDecl_setProperty B _ _ _ _ e1, getDecl_setProperty B _ _ _ _ e2,
      getDecl_setProperty B _ _ _ _ e3, n1, n2, n3, n4, n5, n6, and_self, and_true]

theorem stateBefore_frame (B : Browser) (a b c : F64) (l : List Tree) :
    ∀ (w : Window) (i : Nat),
      (stateBefore B a b c w l i).style i = w.style i ∧
      (stateBefore B a b c w l i).liteReadOriginalStyles i = w.liteReadOriginalStyles i := by
  induction l with
  | nil => intro w i; exact ⟨rfl, rfl⟩
  | cons el rest ih =>
    intro w i
    unfold stateBefore
    by_cases h : isCandidate w el = true ∧ el.id = i
    · rw [if_pos h]; exact ⟨rfl, rfl⟩
    · rw [if_neg h]
      have hne : isCandidate w el = true → el.id ≠ i := fun hc e => h ⟨hc, e⟩
      obtain ⟨h1, h2⟩ := ih (styleElement B a b c w el) i
      exact ⟨h1.trans (styleElement_style_other B a b c w el i hne),
        h2.trans (styleElement_store_other B a b c w el i hne)⟩

/-- Effect of `applyRelativeStyles` on a candidate element. -/
theorem applyRelativeStyles_spec (B : Browser) (a b c : F64) (w : Window) (el : Tree)
    (hel : el ∈ querySelectorAll w) (hc : isCandidate w el = true) :
    (applyRelativeStyles B a b c w).liteReadOriginalStyles el.id =
        some (snapshotUsed B a b c w (querySelectorAll w) el.id) ∧
    (applyRelativeStyles B a b c w).style el.id =
        writeOverrides B (snapshotUsed B a b c w (querySelectorAll w) el.id) a b c
          (w.style el.id) :=
  pass_spec B a b c (querySelectorAll w) w el.id ⟨el, hel, hc, rfl⟩

/-- C4 (as amended): for a candidate element and two delta triples applied one after the other
with no reset in between, the stored snapshot after the second call is the entry the first call
left: the entry the element had before, or else one that records the element's original style
attribute.  The declarations the second call leaves are computed from that snapshot and the
second deltas, the declarations of the first call serving only where nothing is written: font
size = snapshot font size + second fontSizeDelta, written when `> 0`; line height = snapshot
base + second lineHeightDelta, or the new font size times 1.0 when that sum is `NaN` or `<= 0`,
written when `> 0`; letter spacing = snapshot base + second letterSpacingDelta. -/
theorem snapshot_stable_across_deltas (B : Browser) (a1 b1 c1 a2 b2 c2 : F64) (w : Window)
    (el : Tree) (hel : el ∈ querySelectorAll w) (hc : isCandidate w el = true) :
    ∃ snap : Snapshot,
      (applyRelativeStyles B a1 b1 c1 w).liteReadOriginalStyles el.id = some snap ∧
      (applyRelativeStyles B a2 b2 c2
        (applyRelativeStyles B a1 b1 c1 w)).liteReadOriginalStyles el.id = some snap ∧
      (∀ o, w.liteReadOriginalStyles el.id = some o → snap = o) ∧
      (w.liteReadOriginalStyles el.id = none →
        snap.originalInlineStyle = getAttributeStyle (w.style el.id)) ∧
      getDecl ((applyRelativeStyles B a2 b2 c2 (applyRelativeStyles B a1 b1 c1 w)).style el.id)
          "font-size" =
        (if F64.gt (F64.add (parsePx snap.fontSize) a2) F64.zero = true ∧
            B.supports "font-size" ((F64.add (parsePx snap.fontSize) a2).toString ++ "px") = true
          then some ⟨"font-size", (F64.add (parsePx snap.fontSize) a2).toString ++ "px", true⟩
          else getDecl ((applyRelativeStyles B a1 b1 c1 w).style el.id) "font-size") ∧
      getDecl ((applyRelativeStyles B a2 b2 c2 (applyRelativeStyles B a1 b1 c1 w)).style el.id)
          "line-height" =
        (if F64.gt
              (if (F64.add (parseLineHeight snap.lineHeight (parsePx snap.fontSize)) b2).isNaN ||
                  F64.le (F64.add (parseLineHeight snap.lineHeight (parsePx snap.fontSize)) b2)
                    F64.zero
                then F64.mul (F64.add (parsePx snap.fontSize) a2) (F64.lit 10 1)
                else F64.add (parseLineHeight snap.lineHeight (parsePx snap.fontSize)) b2)
              F64.zero = true ∧
            B.supports "line-height"
              ((if (F64.add (parseLineHeight snap.lineHeight (parsePx snap.fontSize)) b2).isNaN ||
                  F64.le (F64.add (parseLineHeight snap.lineHeight (parsePx snap.fontSize)) b2)
                    F64.zero
                then F64.mul (F64.add (parsePx snap.fontSize) a2) (F64.lit 10 1)
                else F64.add (parseLineHeight snap.lineHeight (parsePx snap.fontSize))
                  b2).toString ++ "px") = true
          then some ⟨"line-height",
            (if (F64.add (parseLineHeight snap.lineHeight (parsePx snap.fontSize)) b2).isNaN ||
                F64.le (F64.add (parseLineHeight snap.lineHeight (parsePx snap.fontSize)) b2)
                  F64.zero
              then F64.mul (F64.add (parsePx snap.fontSize) a2) (F64.lit 10 1)
              else F64.add (parseLineHeight snap.lineHeight (parsePx snap.fontSize))
                b2).toString ++ "px", true⟩
          else getDecl ((applyRelativeStyles B a1 b1 c1 w).style el.id) "line-height") ∧
      getDecl ((applyRelativeStyles B a2 b2 c2 (applyRelativeStyles B a1 b1 c1 w)).style el.id)
          "letter-spacing" =
        (if B.supports "letter-spacing"
              ((F64.add (if snap.letterSpacing ≠ "normal" then parsePx snap.letterSpacing
                else F64.zero) c2).toString ++ "px") = true
          then some ⟨"letter-spacing",
            (F64.add (if snap.letterSpacing ≠ "normal" then parsePx snap.letterSpacing
              else F64.zero) c2).toString ++ "px", true⟩
          else getDecl ((applyRelativeStyles B a1 b1 c1 w).style el.id) "letter-spacing") := by
  have h1 := applyRelativeStyles_spec B a1 b1 c1 w el hel hc
  have hq : querySelectorAll (applyRelativeStyles B a1 b1 c1 w) = querySelectorAll w :=
    querySelectorAll_congr _ _ (applyRelativeStyles_body B a1 b1 c1 w)
  have hc2 : isCandidate (applyRelativeStyles B a1 b1 c1 w) el = true := by
    rw [isCandidate_congr _ w el (applyRelativeStyles_nodeValue B a1 b1 c1 w)]; exact hc
  have h2 := applyRelativeStyles_spec B a2 b2 c2 (applyRelativeStyles B a1 b1 c1 w) el
    (by rw [hq]; exact hel) hc2
  have hs : snapshotUsed B a2 b2 c2 (applyRelativeStyles B a1 b1 c1 w)
      (querySelectorAll (applyRelativeStyles B a1 b1 c1 w)) el.id =
      snapshotUsed B a1 b1 c1 w (querySelectorAll w) el.id := by
    simp only [snapshotUsed, h1.1]
  rw [hs] at h2
  have g := getDecl_writeOverrides B (snapshotUsed B a1 b1 c1 w (querySelectorAll w) el.id)
    a2 b2 c2 ((applyRelativeStyles B a1 b1 c1 w).style el.id)
  rw [← h2.2] at g
  refine ⟨_, h1.1, h2.1, ?_, ?_, g.1, g.2.1, g.2.2⟩
  · intro o ho
    simp only [snapshotUsed, ho]
  · intro hnone
    simp only [snapshotUsed, hnone, snapshotOf]
    rw [(stateBefore_frame B a1 b1 c1 (querySelectorAll w) w el.id).1]

theorem resetElement_frame (w : Window) (el : Tree) :
    (resetElement w el).liteReadOriginalStyles = w.liteReadOriginalStyles ∧
    (resetElement w el).body = w.body ∧ (resetElement w el).nodeValue = w.nodeValue := by
  unfold resetElement
  split <;> exact ⟨rfl, rfl, rfl⟩

/-- The reset never touches the snapshot store, the document structure or the text. -/
theorem resetStyles_frame (w : Window) :
    (resetStyles w).liteReadOriginalStyles = w.liteReadOriginalStyles ∧
    (resetStyles w).body = w.body ∧ (resetStyles w).nodeValue = w.nodeValue := by
  unfold resetStyles
  split
  · exact ⟨rfl, rfl, rfl⟩
  · exact foldl_invariant
      (fun r => r.liteReadOriginalStyles = w.liteReadOriginalStyles ∧ r.body = w.body ∧
        r.nodeValue = w.nodeValue)
      resetElement (querySelectorAll w) w ⟨rfl, rfl, rfl⟩
      (fun r x _ h => by
        obtain ⟨h1, h2, h3⟩ := resetElement_frame r x
        exact ⟨h1.trans h.1, h2.trans h.2.1, h3.trans h.2.2⟩)

/-- C5 (as amended): `resetStyles` keeps every style snapshot, and a later
`applyRelativeStyles`, even under a host whose computed styles have changed, reuses the snapshot
captured in the earlier session for a candidate element: the snapshot entry is unchanged and
the overrides written are computed from it. -/
theorem reset_keeps_snapshot (B B2 : Browser) (a1 b1 c1 a2 b2 c2 : F64) (w : Window)
    (el : Tree) (hel : el ∈ querySelectorAll w) (hc : isCandidate w el = true) :
    ∃ snap : Snapshot,
      (applyRelativeStyles B a1 b1 c1 w).liteReadOriginalStyles el.id = some snap ∧
      (resetStyles (applyRelativeStyles B a1 b1 c1 w)).liteReadOriginalStyles el.id =
        some snap ∧
      (applyRelativeStyles B2 a2 b2 c2
        (resetStyles (applyRelativeStyles B a1 b1 c1 w))).liteReadOriginalStyles el.id =
        some snap ∧
      (applyRelativeStyles B2 a2 b2 c2
        (resetStyles (applyRelativeStyles B a1 b1 c1 w))).style el.id =
        writeOverrides B2 snap a2 b2 c2
          ((resetStyles (applyRelativeStyles B a1 b1 c1 w)).style el.id) := by
  have h1 := applyRelativeStyles_spec B a1 b1 c1 w el hel hc
  obtain ⟨r1, r2, r3⟩ := resetStyles_frame (applyRelativeStyles B a1 b1 c1 w)
  have hq : querySelectorAll (resetStyles (applyRelativeStyles B a1 b1 c1 w)) =
      querySelectorAll w :=
    querySelectorAll_congr _ _ (r2.trans (applyRelativeStyles_body B a1 b1 c1 w))
  have hc2 : isCandidate (resetStyles (applyRelativeStyles B a1 b1 c1 w)) el = true := by
    rw [isCandidate_congr _ w el (r3.trans (applyRelativeStyles_nodeValue B a1 b1 c1 w))]
    exact hc
  have h2 := applyRelativeStyles_spec B2 a2 b2 c2
    (resetStyles (applyRelativeStyles B a1 b1 c1 w)) el (by rw [hq]; exact hel) hc2
  have hs : snapshotUsed B2 a2 b2 c2 (resetStyles (applyRelativeStyles B a1 b1 c1 w))
      (querySelectorAll (resetStyles (applyRelativeStyles B a1 b1 c1 w))) el.id =
      snapshotUsed B a1 b1 c1 w (querySelectorAll w) el.id := by
    simp only [snapshotUsed, r1, h1.1]
  rw [hs] at h2
  exact ⟨_, h1.1, by rw [r1]; exact h1.1, h2.1, h2.2⟩

/-- C7 (as amended): after `applyRelativeStyles` a candidate element's line-height declaration
is `(base + lineHeightDelta)px` with important priority when that sum is `> 0`; it is
`(new font size * 1.0)px` when the sum is `NaN` or `<= 0` and that fallback is `> 0`; in both
cases only if the host accepts the value, and otherwise, also when the fallback is not `> 0`,
the declaration is the one the element had before the call. -/
theorem lineHeight_override (B : Browser) (a b c : F64) (w : Window) (el : Tree)
    (hel : el ∈ querySelectorAll w) (hc : isCandidate w el = true) :
    ∃ snap : Snapshot,
      (applyRelativeStyles B a b c w).liteReadOriginalStyles el.id = some snap ∧
      (F64.gt (lineHeightSum snap b) F64.zero = true →
        getDecl ((applyRelativeStyles B a b c w).style el.id) "line-height" =
          if B.supports "line-height" (px (lineHeightSum snap b)) = true
          then some ⟨"line-height", px (lineHeightSum snap b), true⟩
          else getDecl (w.style el.id) "line-height") ∧
      (((lineHeightSum snap b).isNaN = true ∨ F64.le (lineHeightSum snap b) F64.zero = true) →
        F64.gt (F64.mul (newFontSize snap a) (F64.lit 10 1)) F64.zero = true →
        getDecl ((applyRelativeStyles B a b c w).style el.id) "line-height" =
          if B.supports "line-height" (px (F64.mul (newFontSize snap a) (F64.lit 10 1))) = true
          then some ⟨"line-height", px (F64.mul (newFontSize snap a) (F64.lit 10 1)), true⟩
          else getDecl (w.style el.id) "line-height") ∧
      (((lineHeightSum snap b).isNaN = true ∨ F64.le (lineHeightSum snap b) F64.zero = true) →
        F64.gt (F64.mul (newFontSize snap a) (F64.lit 10 1)) F64.zero = false →
        getDecl ((applyRelativeStyles B a b c w).style el.id) "line-height" =
          getDecl (w.style el.id) "line-height") := by
  have h := applyRelativeStyles_spec B a b c w el hel hc
  refine ⟨_, h.1, ?_, ?_, ?_⟩
  · intro hgt
    obtain ⟨hn, hle⟩ := gt_zero_not_le _ hgt
    have hnew : newLineHeight (snapshotUsed B a b c w (querySelectorAll w) el.id) a b =
        lineHeightSum (snapshotUsed B a b c w (querySelectorAll w) el.id) b := by
      simp [newLineHeight, hn, hle]
    rw [h.2, (getDecl_writeOverrides B _ a b c _).2.1, hnew]
    simp only [hgt, true_and]
  · intro hbad hgt
    have hnew : newLineHeight (snapshotUsed B a b c w (querySelectorAll w) el.id) a b =
        F64.mul (newFontSize (snapshotUsed B a b c w (querySelectorAll w) el.id) a)
          (F64.lit 10 1) := by
      rcases hbad with hb | hb <;> simp [newLineHeight, hb]
    rw [h.2, (getDecl_writeOverrides B _ a b c _).2.1, hnew]
    simp only [hgt, true_and]
  · intro hbad hgt
    have hnew : newLineHeight (snapshotUsed B a b c w (querySelectorAll w) el.id) a b =
        F64.mul (newFontSize (snapshotUsed B a b c w (querySelectorAll w) el.id) a)
          (F64.lit 10 1) := by
      rcases hbad with hb | hb <;> simp [newLineHeight, hb]
    rw [h.2, (getDecl_writeOverrides B _ a b c _).2.1, hnew]
    simp only [hgt, Bool.false_eq_true, false_and, if_false]

/-- C8: for a candidate element whose snapshot font size is `f` and a delta `d`, after
`applyRelativeStyles` the element carries the font-size declaration `(f + d)px` with important
priority when `f + d > 0` (the host accepting the value), and the call leaves the font-size
declaration as it was when `f + d` is not `> 0`. -/
theorem fontSize_override (B : Browser) (a b c : F64) (w : Window) (el : Tree)
    (hel : el ∈ querySelectorAll w) (hc : isCandidate w el = true) :
    ∃ snap : Snapshot,
      (applyRelativeStyles B a b c w).liteReadOriginalStyles el.id = some snap ∧
      (F64.gt (F64.add (parsePx snap.fontSize) a) F64.zero = true →
        getDecl ((applyRelativeStyles B a b c w).style el.id) "font-size" =
          if B.supports "font-size" ((F64.add (parsePx snap.fontSize) a).toString ++ "px") = true
          then some ⟨"font-size", (F64.add (parsePx snap.fontSize) a).toString ++ "px", true⟩
          else getDecl (w.style el.id) "font-size") ∧
      (F64.gt (F64.add (parsePx snap.fontSize) a) F64.zero = false →
        getDecl ((applyRelativeStyles B a b c w).style el.id) "font-size" =
          getDecl (w.style el.id) "font-size") := by
  have h := applyRelativeStyles_spec B a b c w el hel hc
  refine ⟨_, h.1, ?_, ?_⟩
  · intro hgt
    rw [h.2, (getDecl_writeOverrides B _ a b c _).1]
    simp only [newFontSize, px, hgt, true_and]
  · intro hgt
    rw [h.2, (getDecl_writeOverrides B _ a b c _).1]
    simp only [newFontSize, hgt, Bool.false_eq_true, false_and, if_false]

theorem intercalate_go_length (s : String) (l : List String) :
    ∀ acc : String, acc.length ≤ (String.intercalate.go acc s l).length := by
  induction l with
  | nil => intro acc; simp [String.intercalate.go]
  | cons a as ih =>
    intro acc
    simp only [String.intercalate.go]
    have := ih (acc ++ s ++ a)
    simp only [String.length_append] at this
    omega

theorem cssText_eq_empty (ds : List Decl) : cssText ds = "" ↔ ds = [] := by
  constructor
  · intro h
    cases ds with
    | nil => rfl
    | cons d rest =>
      exfalso
      have h1 := intercalate_go_length " " (rest.map Decl.text) d.text
      have h2 : cssText (d :: rest) = String.intercalate.go d.text " " (rest.map Decl.text) := rfl
      rw [← h2, h] at h1
      have h3 : 2 ≤ d.text.length := by
        simp only [Decl.text, String.length_append]
        have : (": " : String).length = 2 := by decide
        omega
      have h4 : ("" : String).length = 0 := by decide
      omega
  · intro h; subst h; rfl

theorem removeProperty_chain (st : Option (List Decl)) :
    removeProperty (removeProperty (removeProperty (removeProperty (removeProperty st
      "font-size") "line-height") "letter-spacing") "height") "min-height" =
      st.map stripEngine := by
  cases st with
  | none => rfl
  | some ds =>
    simp only [removeProperty, Option.map_some', stripEngine, List.filter_filter]
    congr 1
    apply List.filter_congr
    intro d _
    simp only [engineProperties, List.mem_cons, List.mem_singleton, List.not_mem_nil, or_false,
      not_or, ne_eq, decide_not, Bool.decide_and]
    generalize decide (d.property = "font-size") = b1
    generalize decide (d.property = "line-height") = b2
    generalize decide (d.property = "letter-spacing") = b3
    generalize decide (d.property = "height") = b4
    generalize decide (d.property = "min-height") = b5
    cases b1 <;> cases b2 <;> cases b3 <;> cases b4 <;> cases b5 <;> rfl

/-- The style attribute left by the reset of one element: the declarations outside the engine's
five properties, and no attribute at all when the snapshot records no inline style and nothing
is left. -/
theorem resetStyleOf_eq (o : Snapshot) (st : Option (List Decl)) :
    resetStyleOf o st =
      if (o.originalInlineStyle = none ∨ o.originalInlineStyle = some "") ∧
          st.map stripEngine = some []
      then none else st.map stripEngine := by
  unfold resetStyleOf
  simp only [removeProperty_chain]
  by_cases ho : o.originalInlineStyle = none ∨ o.originalInlineStyle = some ""
  · simp only [ho, if_true, true_and]
    cases hst : st.map stripEngine with
    | none => simp [getAttributeStyle]
    | some ds =>
      by_cases hds : ds = []
      · subst hds
        have : cssText [] = "" := rfl
        simp [getAttributeStyle, this]
      · have : cssText ds ≠ "" := fun h => hds ((cssText_eq_empty ds).1 h)
        simp [getAttributeStyle, this, hds]
  · simp only [ho, if_false, false_and]

theorem stripEngine_idem (ds : List Decl) : stripEngine (stripEngine ds) = stripEngine ds := by
  simp [stripEngine, List.filter_filter]

theorem resetStyleOf_idem (o : Snapshot) (st : Option (List Decl)) :
    resetStyleOf o (resetStyleOf o st) = resetStyleOf o st := by
  rw [resetStyleOf_eq o st]
  by_cases h : (o.originalInlineStyle = none ∨ o.originalInlineStyle = some "") ∧
      st.map stripEngine = some []
  · rw [if_pos h, resetStyleOf_eq]
    simp
  · rw [if_neg h, resetStyleOf_eq]
    have hmap : Option.map stripEngine (Option.map stripEngine st) = Option.map stripEngine st := by
      cases st with
      | none => rfl
      | some ds => simp [stripEngine_idem]
    rw [hmap, if_neg h]

theorem resetStyles_flag (w : Window) : (resetStyles w).liteReadStylesApplied = false := by
  unfold resetStyles
  split
  · assumption
  · rfl

theorem resetElement_eq (w : Window) (el : Tree) :
    resetElement w el =
      match w.liteReadOriginalStyles el.id with
      | none => w
      | some o => { w with style := upd w.style el.id (resetStyleOf o (w.style el.id)) } := rfl

theorem resetElement_style (w : Window) (el : Tree) (i : Nat) :
    (resetElement w el).style i =
      if el.id = i then
        (match w.liteReadOriginalStyles i with
         | some o => resetStyleOf o (w.style i)
         | none => w.style i)
      else w.style i := by
  rw [resetElement_eq]
  by_cases h : el.id = i
  · subst h
    cases hs : w.liteReadOriginalStyles el.id with
    | none => simp
    | some o => simp [upd_same]
  · cases hs : w.liteReadOriginalStyles el.id with
    | none => simp [h]
    | some o => simp [h, upd_other _ _ _ _ (fun e => h e.symm)]

/-- The loop of `resetStyles`: an element that is visited and has a snapshot ends with the
reset style attribute; an element that is not visited keeps its style attribute. -/
theorem reset_fold (l : List Tree) :
    ∀ (w : Window) (i : Nat),
      ((∀ el ∈ l, el.id ≠ i) → (l.foldl resetElement w).style i = w.style i) ∧
      (∀ snap, w.liteReadOriginalStyles i = some snap → (∃ el ∈ l, el.id = i) →
        (l.foldl resetElement w).style i = resetStyleOf snap (w.style i)) := by
  induction l with
  | nil =>
    intro w i
    refine ⟨fun _ => rfl, ?_⟩
    intro snap _ h
    obtain ⟨el, hel, _⟩ := h
    cases hel
  | cons x xs ih =>
    intro w i
    simp only [List.foldl_cons]
    obtain ⟨ih1, ih2⟩ := ih (resetElement w x) i
    have hstore : (resetElement w x).liteReadOriginalStyles = w.liteReadOriginalStyles :=
      (resetElement_frame w x).1
    have hstyle := resetElement_style w x i
    refine ⟨?_, ?_⟩
    · intro hall
      rw [ih1 (fun el hel => hall el (List.mem_cons_of_mem _ hel)), hstyle,
        if_neg (hall x (List.mem_cons_self _ _))]
    · intro snap hs hex
      by_cases hx : x.id = i
      · have hx2 : (resetElement w x).style i = resetStyleOf snap (w.style i) := by
          rw [hstyle, if_pos hx, hs]
        by_cases hin : ∃ el ∈ xs, el.id = i
        · rw [ih2 snap (by rw [hstore]; exact hs) hin, hx2, resetStyleOf_idem]
        · rw [ih1 (fun el hel e => hin ⟨el, hel, e⟩), hx2]
      · have hin : ∃ el ∈ xs, el.id = i := by
          obtain ⟨el, hel, e⟩ := hex
          rcases List.mem_cons.1 hel with rfl | hel
          · exact absurd e hx
          · exact ⟨el, hel, e⟩
        rw [ih2 snap (by rw [hstore]; exact hs) hin, hstyle, if_neg hx]

theorem find_stripEngine (ds : List Decl) (p : String) :
    (stripEngine ds).find? (fun d => d.property = p) =
      if p ∈ engineProperties then none else ds.find? (fun d => d.property = p) := by
  induction ds with
  | nil => simp [stripEngine]
  | cons x xs ih =>
    unfold stripEngine at ih ⊢
    by_cases hx : x.property ∈ engineProperties
    · rw [List.filter_cons_of_neg (by simpa using hx), ih]
      by_cases hp : p ∈ engineProperties
      · simp [hp]
      · have hne : ¬ x.property = p := fun e => hp (e ▸ hx)
        simp [hp, List.find?, hne]
    · rw [List.filter_cons_of_pos (by simpa using hx)]
      by_cases hxp : x.property = p
      · have hp : p ∉ engineProperties := fun h => hx (hxp ▸ h)
        simp [List.find?, hxp, hp]
      · simp only [List.find?, hxp, decide_False]
        exact ih

/-- Effect of `resetStyles`, with styles applied, on an element the selector matches and that
has a snapshot. -/
theorem resetStyles_style (w : Window) (el : Tree) (snap : Snapshot)
    (happ : w.liteReadStylesApplied = true) (hel : el ∈ querySelectorAll w)
    (hs : w.liteReadOriginalStyles el.id = some snap) :
    (resetStyles w).style el.id = resetStyleOf snap (w.style el.id) := by
  unfold resetStyles
  simp only [happ, Bool.true_eq_false, if_false]
  exact (reset_fold (querySelectorAll w) w el.id).2 snap hs ⟨el, hel, rfl⟩

/-- C11: when no adjustment is active `resetStyles` changes nothing; when styles are applied it
clears the styles-applied flag and, for every element the selector matches (every candidate of
`applyRelativeStyles` among them) that has a snapshot, leaves no inline font-size, line-height,
letter-spacing, height or min-height, leaves every other inline declaration as it was, in the
same order, and leaves no style attribute at all exactly when there was none already or when
the snapshot records no inline style from before the adjustment and no declaration is left. -/
theorem resetStyles_effect (w : Window) :
    (w.liteReadStylesApplied = false → resetStyles w = w) ∧
    (w.liteReadStylesApplied = true →
      (resetStyles w).liteReadStylesApplied = false ∧
      ∀ el ∈ querySelectorAll w, ∀ snap, w.liteReadOriginalStyles el.id = some snap →
        (∀ p ∈ engineProperties, getDecl ((resetStyles w).style el.id) p = none) ∧
        (∀ p, p ∉ engineProperties →
          getDecl ((resetStyles w).style el.id) p = getDecl (w.style el.id) p) ∧
        ((resetStyles w).style el.id).getD [] = stripEngine ((w.style el.id).getD []) ∧
        ((resetStyles w).style el.id = none ↔
          (w.style el.id = none ∨
            ((snap.originalInlineStyle = none ∨ snap.originalInlineStyle = some "") ∧
              stripEngine ((w.style el.id).getD []) = [])))) := by
  refine ⟨fun h => by simp [resetStyles, h], fun happ => ⟨resetStyles_flag w, ?_⟩⟩
  intro el hel snap hs
  have hst := resetStyles_style w el snap happ hel hs
  rw [resetStyleOf_eq] at hst
  have hlist : ((resetStyles w).style el.id).getD [] = stripEngine ((w.style el.id).getD []) := by
    rw [hst]
    cases hw : w.style el.id with
    | none => simp [stripEngine]
    | some ds =>
      by_cases hc : (snap.originalInlineStyle = none ∨ snap.originalInlineStyle = some "") ∧
          stripEngine ds = []
      · simp [hc]
      · simp [hc]
  refine ⟨?_, ?_, hlist, ?_⟩
  · intro p hp
    unfold getDecl
    rw [hlist, find_stripEngine, if_pos hp]
  · intro p hp
    unfold getDecl
    rw [hlist, find_stripEngine, if_neg hp]
  · rw [hst]
    cases hw : w.style el.id with
    | none => simp
    | some ds =>
      by_cases hc : (snap.originalInlineStyle = none ∨ snap.originalInlineStyle = some "") ∧
          stripEngine ds = []
      · simp [hc]
      · simp only [Option.map_some', Option.some.injEq, hc, if_false, Option.getD_some,
          false_or]
        simp

/-- C12 (as amended): for a candidate element that works from the same snapshot in both runs,
each of font-size, line-height and letter-spacing after `applyRelativeStyles` with d1 and then
with d2 is the declaration d2 computes from the snapshot, as after d2 alone, whenever d2 writes
that property (the new value being `> 0` for font-size and line-height, and the host accepting
it); when d2 does not write it, the run d1 then d2 keeps the declaration left by d1, and d2
alone keeps the initial one. -/
theorem overrides_after_two_deltas (B : Browser) (a1 b1 c1 a2 b2 c2 : F64) (w : Window)
    (el : Tree) (hel : el ∈ querySelectorAll w) (hc : isCandidate w el = true)
    (hsame : snapshotUsed B a1 b1 c1 w (querySelectorAll w) el.id =
      snapshotUsed B a2 b2 c2 w (querySelectorAll w) el.id) :
    ∃ snap : Snapshot,
      (applyRelativeStyles B a2 b2 c2 w).liteReadOriginalStyles el.id = some snap ∧
      (applyRelativeStyles B a2 b2 c2
        (applyRelativeStyles B a1 b1 c1 w)).liteReadOriginalStyles el.id = some snap ∧
      (getDecl ((applyRelativeStyles B a2 b2 c2 (applyRelativeStyles B a1 b1 c1 w)).style el.id)
          "font-size" =
        (if F64.gt (newFontSize snap a2) F64.zero = true ∧
            B.supports "font-size" (px (newFontSize snap a2)) = true
          then some ⟨"font-size", px (newFontSize snap a2), true⟩
          else getDecl ((applyRelativeStyles B a1 b1 c1 w).style el.id) "font-size") ∧
       getDecl ((applyRelativeStyles B a2 b2 c2 w).style el.id) "font-size" =
        (if F64.gt (newFontSize snap a2) F64.zero = true ∧
            B.supports "font-size" (px (newFontSize snap a2)) = true
          then some ⟨"font-size", px (newFontSize snap a2), true⟩
          else getDecl (w.style el.id) "font-size")) ∧
      (getDecl ((applyRelativeStyles B a2 b2 c2 (applyRelativeStyles B a1 b1 c1 w)).style el.id)
          "line-height" =
        (if F64.gt (newLineHeight snap a2 b2) F64.zero = true ∧
            B.supports "line-height" (px (newLineHeight snap a2 b2)) = true
          then some ⟨"line-height", px (newLineHeight snap a2 b2), true⟩
          else getDecl ((applyRelativeStyles B a1 b1 c1 w).style el.id) "line-height") ∧
       getDecl ((applyRelativeStyles B a2 b2 c2 w).style el.id) "line-height" =
        (if F64.gt (newLineHeight snap a2 b2) F64.zero = true ∧
            B.supports "line-height" (px (newLineHeight snap a2 b2)) = true
          then some ⟨"line-height", px (newLineHeight snap a2 b2), true⟩
          else getDecl (w.style el.id) "line-height")) ∧
      (getDecl ((applyRelativeStyles B a2 b2 c2 (applyRelativeStyles B a1 b1 c1 w)).style el.id)
          "letter-spacing" =
        (if B.supports "letter-spacing" (px (newLetterSpacing snap c2)) = true
          then some ⟨"letter-spacing", px (newLetterSpacing snap c2), true⟩
          else getDecl ((applyRelativeStyles B a1 b1 c1 w).style el.id) "letter-spacing") ∧
       getDecl ((applyRelativeStyles B a2 b2 c2 w).style el.id) "letter-spacing" =
        (if B.supports "letter-spacing" (px (newLetterSpacing snap c2)) = true
          then some ⟨"letter-spacing", px (newLetterSpacing snap c2), true⟩
          else getDecl (w.style el.id) "letter-spacing")) := by
  have h1 := applyRelativeStyles_spec B a1 b1 c1 w el hel hc
  have h2 := applyRelativeStyles_spec B a2 b2 c2 w el hel hc
  have hq : querySelectorAll (applyRelativeStyles B a1 b1 c1 w) = querySelectorAll w :=
    querySelectorAll_congr _ _ (applyRelativeStyles_body B a1 b1 c1 w)
  have hc2 : isCandidate (applyRelativeStyles B a1 b1 c1 w) el = true := by
    rw [isCandidate_congr _ w el (applyRelativeStyles_nodeValue B a1 b1 c1 w)]; exact hc
  have h12 := applyRelativeStyles_spec B a2 b2 c2 (applyRelativeStyles B a1 b1 c1 w) el
    (by rw [hq]; exact hel) hc2
  have hs : snapshotUsed B a2 b2 c2 (applyRelativeStyles B a1 b1 c1 w)
      (querySelectorAll (applyRelativeStyles B a1 b1 c1 w)) el.id =
      snapshotUsed B a2 b2 c2 w (querySelectorAll w) el.id := by
    simp only [snapshotUsed, h1.1]
    exact hsame
  rw [hs] at h12
  have g12 := getDecl_writeOverrides B (snapshotUsed B a2 b2 c2 w (querySelectorAll w) el.id)
    a2 b2 c2 ((applyRelativeStyles B a1 b1 c1 w).style el.id)
  have g2 := getDecl_writeOverrides B (snapshotUsed B a2 b2 c2 w (querySelectorAll w) el.id)
    a2 b2 c2 (w.style el.id)
  rw [← h12.2] at g12
  rw [← h2.2] at g2
  exact ⟨_, h2.1, h12.1, ⟨g12.1, g2.1⟩, ⟨g12.2.1, g2.2.1⟩, ⟨g12.2.2, g2.2.2⟩⟩

theorem digit_range (c : Char) (h : c.isDigit = true) : 48 ≤ c.toNat ∧ c.toNat ≤ 57 := by
  simp [Char.isDigit] at h
  exact ⟨h.1, h.2⟩

theorem digit_not_space (c : Char) (h : c.isDigit = true) : isJsSpace c = false := by
  have hr := digit_range c h
  simp [isJsSpace]
  omega

theorem pack_not_nan (neg : Bool) (m : Nat) (e : Int) : (F64.pack neg m e).isNaN = false := by
  unfold F64.pack
  split
  · rfl
  · dsimp only
    split <;> rfl

theorem round_not_nan (neg : Bool) (n d : Nat) : (F64.round neg n d).isNaN = false := by
  unfold F64.round
  split
  · rfl
  · exact pack_not_nan _ _ _

/-- The parts of a unitless number text: a first digit, and only digits and points. -/
theorem unitless_parts (s : String) (h : isUnitlessNumber s = true) :
    (∃ c rest, s.data = c :: rest ∧ c.isDigit = true) ∧
    ∀ c ∈ s.data, c.isDigit = true ∨ c = '.' := by
  simp only [isUnitlessNumber, Bool.and_eq_true, List.all_eq_true, Bool.or_eq_true,
    beq_iff_eq, decide_eq_true_eq] at h
  obtain ⟨⟨hall, hhead⟩, _⟩ := h
  refine ⟨?_, hall⟩
  cases hd : s.data with
  | nil => rw [hd] at hhead; simp at hhead
  | cons c rest =>
    rw [hd] at hhead
    simp at hhead
    exact ⟨c, rest, rfl, hhead⟩

theorem unitless_not_nan (s : String) (h : isUnitlessNumber s = true) :
    (parseFloat s).isNaN = false := by
  obtain ⟨⟨c, rest, hd, hc⟩, _⟩ := unitless_parts s h
  have hsp : (c :: rest).dropWhile isJsSpace = c :: rest := by
    simp [List.dropWhile, digit_not_space c hc]
  have hm : c ≠ '-' := by intro e; subst e; exact absurd hc (by decide)
  have hp : c ≠ '+' := by intro e; subst e; exact absurd hc (by decide)
  have hI : c ≠ 'I' := by intro e; subst e; exact absurd hc (by decide)
  have hpar : parseFloat s = parseUnsigned false (c :: rest) := by
    unfold parseFloat
    rw [hd, hsp]
    split
    · next cs heq => exact absurd (List.cons.inj heq).1 hm
    · next cs heq => exact absurd (List.cons.inj heq).1 hp
    · rfl
  rw [hpar]
  unfold parseUnsigned
  have hinf : ("Infinity".data.isPrefixOf (c :: rest)) = false := by
    have : "Infinity".data = 'I' :: "nfinity".data := rfl
    rw [this]
    simp [List.isPrefixOf, hI.symm]
  simp only [hinf, Bool.false_eq_true, if_false]
  have hip : (List.takeWhile Char.isDigit (c :: rest)).isEmpty = false := by
    simp [List.takeWhile, hc]
  simp only [hip, Bool.false_eq_true, false_and, if_false]
  exact round_not_nan _ _ _

theorem endsWith_px (t : String) : jsEndsWith (t ++ "px") "px" = true := by
  unfold jsEndsWith
  have h1 : (t ++ "px").data = t.data ++ ['p', 'x'] := by simp [String.data_append]
  have h2 : ("px" : String).data.reverse = ['x', 'p'] := rfl
  rw [h1, h2, List.reverse_append]
  simp [List.isPrefixOf]

theorem removeFirst_px (cs : List Char) (h : 'p' ∉ cs) :
    removeFirst ['p', 'x'] (cs ++ ['p', 'x']) = cs := by
  induction cs with
  | nil => decide
  | cons c rest ih =>
    have hc : c ≠ 'p' := fun e => h (by simp [e])
    have hr : 'p' ∉ rest := fun e => h (List.mem_cons_of_mem _ e)
    have hpre : (['p', 'x'].isPrefixOf (c :: (rest ++ ['p', 'x']))) = false := by
      simp [List.isPrefixOf, hc.symm]
    show removeFirst ['p', 'x'] (c :: (rest ++ ['p', 'x'])) = c :: rest
    rw [removeFirst, hpre, ih hr]
    rfl

theorem jsRemove_px (t : String) (h : 'p' ∉ t.data) : jsRemove (t ++ "px") "px" = t := by
  unfold jsRemove
  have h1 : (t ++ "px").data = t.data ++ ['p', 'x'] := by simp [String.data_append]
  have h2 : ("px" : String).data = ['p', 'x'] := rfl
  rw [h1, h2, removeFirst_px t.data h]

theorem unitless_no_p (s : String) (h : isUnitlessNumber s = true) : 'p' ∉ s.data := by
  intro hp
  rcases (unitless_parts s h).2 'p' hp with hd | he
  · exact absurd hd (by decide)
  · exact absurd he (by decide)

theorem unitless_not_px (s : String) (h : isUnitlessNumber s = true) :
    jsEndsWith s "px" = false := by
  unfold jsEndsWith
  have h2 : ("px" : String).data.reverse = ['x', 'p'] := rfl
  rw [h2]
  cases hr : s.data.reverse with
  | nil => simp [List.isPrefixOf]
  | cons c rest =>
    have hmem : c ∈ s.data := by
      have : c ∈ s.data.reverse := by rw [hr]; exact List.mem_cons_self _ _
      exact List.mem_reverse.1 this
    have hx : c ≠ 'x' := by
      intro e
      subst e
      rcases (unitless_parts s h).2 'x' hmem with hd | he
      · exact absurd hd (by decide)
      · exact absurd he (by decide)
    simp [List.isPrefixOf, hx.symm]

theorem readsNoNumber_nan (s : String) (h : readsNoNumber s = true) : parseFloat s = F64.nan := by
  unfold readsNoNumber at h
  unfold parseFloat
  cases hd : s.data.dropWhile isJsSpace with
  | nil =>
    simp only []
    decide
  | cons c rest =>
    rw [hd] at h
    simp only [Bool.not_eq_true', Bool.or_eq_false_iff, beq_eq_false_iff_ne, ne_eq] at h
    obtain ⟨⟨⟨⟨hdig, hp⟩, hm⟩, hdot⟩, hI⟩ := h
    have hnan : parseUnsigned false (c :: rest) = F64.nan := by
      unfold parseUnsigned
      have hinf : ("Infinity".data.isPrefixOf (c :: rest)) = false := by
        have : "Infinity".data = 'I' :: "nfinity".data := rfl
        rw [this]
        simp [List.isPrefixOf, Ne.symm hI]
      have hip : List.takeWhile Char.isDigit (c :: rest) = [] := by
        simp [List.takeWhile, hdig]
      have hdrop : List.dropWhile Char.isDigit (c :: rest) = c :: rest := by
        simp [List.dropWhile, hdig]
      simp only [hinf, Bool.false_eq_true, if_false, hip, hdrop]
      split
      · rfl
      · next hne =>
        exfalso
        apply hne
        refine ⟨rfl, ?_⟩
        split
        · next t heq => exact absurd (List.cons.inj heq).1 hdot
        · rfl
    split
    · next cs heq => exact absurd (List.cons.inj heq).1 hm
    · next cs heq => exact absurd (List.cons.inj heq).1 hp
    · exact hnan

/-! ## Concrete runs -/

set_option maxRecDepth 100000

theorem samplePage_elements : querySelectorAll samplePage =
    [.element 1 "P" [.text 2], .element 3 "DIV" [.element 4 "SPAN" [.text 5]],
     .element 4 "SPAN" [.text 5]] := by rfl

theorem samplePage_p_mem : Tree.element 1 "P" [.text 2] ∈ querySelectorAll samplePage := by
  rw [samplePage_elements]
  exact List.mem_cons_self _ _

/-- C2: on the page `<p style="font-size: 12px; color: red">`, the adjustment (+2, 0, 0)
followed by the identity adjustment leaves the paragraph with the style text `color: red;`:
the author's inline font-size is not restored. -/
theorem reset_drops_author_font_size :
    getAttributeStyle (inlinePage.style 1) = some "font-size: 12px; color: red;" ∧
    getAttributeStyle ((run sampleHost inlinePage
      [.updateStyles "2" "0" "0" (some false),
       .updateStyles "0" "0" "0" (some false)]).style 1) = some "color: red;" := by
  decide

/-- Witness for C3 on the sample page: the paragraph text is spaced and then restored. -/
theorem applyPangu_then_revertPangu_witness :
    (applyPangu sampleHost samplePage).nodeValue 2 = "中文 abc" ∧
    (revertPangu (applyPangu sampleHost samplePage)).nodeValue 2 = "中文abc" :=
  ⟨by decide,
   ((applyPangu_then_revertPangu sampleHost samplePage (fun _ => rfl)).1 2).trans (by decide)⟩

/-- Witness for C4 (as amended) on the sample page: after (+2, +10, +0.5) and then (-1, 0, 0)
the paragraph still has the snapshot of its first capture, and its font size is 16 - 1, not
18 - 1. -/
theorem snapshot_stable_across_deltas_witness :
    (applyRelativeStyles sampleHost (F64.ofInt (-1)) F64.zero F64.zero
      (applyRelativeStyles sampleHost (F64.ofInt 2) (F64.ofInt 10) (F64.lit 5 1)
        samplePage)).liteReadOriginalStyles 1 =
      some ⟨"16px", "normal", "normal", "block", none⟩ ∧
    getDecl ((applyRelativeStyles sampleHost (F64.ofInt (-1)) F64.zero F64.zero
      (applyRelativeStyles sampleHost (F64.ofInt 2) (F64.ofInt 10) (F64.lit 5 1)
        samplePage)).style 1) "font-size" = some ⟨"font-size", "15px", true⟩ := by
  obtain ⟨snap, h1, h2, _, _, hfs, _⟩ :=
    snapshot_stable_across_deltas sampleHost (F64.ofInt 2) (F64.ofInt 10) (F64.lit 5 1)
      (F64.ofInt (-1)) F64.zero F64.zero samplePage (.element 1 "P" [.text 2])
      samplePage_p_mem (by decide)
  have h0 : (applyRelativeStyles sampleHost (F64.ofInt 2) (F64.ofInt 10) (F64.lit 5 1)
      samplePage).liteReadOriginalStyles 1 = some ⟨"16px", "normal", "normal", "block", none⟩ := by
    decide
  have hs : snap = ⟨"16px", "normal", "normal", "block", none⟩ :=
    Option.some.inj (h1.symm.trans h0)
  subst hs
  refine ⟨h2, ?_⟩
  have hcond : F64.gt (F64.add (parsePx "16px") (F64.ofInt (-1))) F64.zero = true ∧
      sampleHost.supports "font-size"
        ((F64.add (parsePx "16px") (F64.ofInt (-1))).toString ++ "px") = true := by
    decide
  rw [if_pos hcond] at hfs
  exact hfs.trans (by decide)

/-- C4, counterexample: snapshot font size 16px and line height 20px; after the deltas
(0, +5, 0) and then (+2, -31, 0) the snapshot is unchanged, but the line height the second call
writes is 18px, the new font size, not the snapshot base plus the second delta, 20 - 31. -/
theorem second_lineHeight_is_fallback :
    (applyRelativeStyles (sheetBrowser "16px" "20px" "normal") (F64.ofInt 2) (F64.ofInt (-31))
      F64.zero
      (applyRelativeStyles (sheetBrowser "16px" "20px" "normal") F64.zero (F64.ofInt 5) F64.zero
        samplePage)).liteReadOriginalStyles 1 = some ⟨"16px", "20px", "normal", "block", none⟩ ∧
    px (F64.add (parseLineHeight "20px" (parsePx "16px")) (F64.ofInt (-31))) = "-11px" ∧
    getDecl ((applyRelativeStyles (sheetBrowser "16px" "20px" "normal") (F64.ofInt 2)
      (F64.ofInt (-31)) F64.zero
      (applyRelativeStyles (sheetBrowser "16px" "20px" "normal") F64.zero (F64.ofInt 5) F64.zero
        samplePage)).style 1) "line-height" = some ⟨"line-height", "18px", true⟩ ∧
    getDecl ((applyRelativeStyles (sheetBrowser "16px" "20px" "normal") (F64.ofInt 2)
      (F64.ofInt (-31)) F64.zero
      (applyRelativeStyles (sheetBrowser "16px" "20px" "normal") F64.zero (F64.ofInt 5) F64.zero
        samplePage)).style 1) "line-height" ≠ some ⟨"line-height", "-11px", true⟩ := by
  decide

/-- C5, counterexample: the paragraph is adjusted (+2) under a 16px style sheet and reset; the
sheet then changes to 30px; a new adjustment (+2) still finds the 16px snapshot and writes
18px, not 32px. -/
theorem stale_snapshot_after_reset :
    ((sheetBrowser "30px" "normal" "normal").getComputedStyle
      (resetStyles (applyRelativeStyles sampleHost (F64.ofInt 2) F64.zero F64.zero samplePage)).body
      (resetStyles (applyRelativeStyles sampleHost (F64.ofInt 2) F64.zero F64.zero samplePage)).style
      1).fontSize = "30px" ∧
    (resetStyles (applyRelativeStyles sampleHost (F64.ofInt 2) F64.zero F64.zero
      samplePage)).liteReadOriginalStyles 1 =
      some ⟨"16px", "normal", "normal", "block", none⟩ ∧
    getDecl ((applyRelativeStyles (sheetBrowser "30px" "normal" "normal") (F64.ofInt 2) F64.zero
      F64.zero (resetStyles (applyRelativeStyles sampleHost (F64.ofInt 2) F64.zero F64.zero
        samplePage))).style 1) "font-size" = some ⟨"font-size", "18px", true⟩ ∧
    px (F64.add (parsePx "30px") (F64.ofInt 2)) = "32px" ∧
    getDecl ((applyRelativeStyles (sheetBrowser "30px" "normal" "normal") (F64.ofInt 2) F64.zero
      F64.zero (resetStyles (applyRelativeStyles sampleHost (F64.ofInt 2) F64.zero F64.zero
        samplePage))).style 1) "font-size" ≠ some ⟨"font-size", "32px", true⟩ := by
  decide

/-- Witness for C5 (as amended) on the sample page. -/
theorem reset_keeps_snapshot_witness :
    (applyRelativeStyles (sheetBrowser "30px" "normal" "normal") (F64.ofInt 2) F64.zero F64.zero
      (resetStyles (applyRelativeStyles sampleHost (F64.ofInt 2) F64.zero F64.zero
        samplePage))).liteReadOriginalStyles 1 =
    (applyRelativeStyles sampleHost (F64.ofInt 2) F64.zero F64.zero
      samplePage).liteReadOriginalStyles 1 := by
  obtain ⟨snap, h1, _, h3, _⟩ :=
    reset_keeps_snapshot sampleHost (sheetBrowser "30px" "normal" "normal") (F64.ofInt 2) F64.zero
      F64.zero (F64.ofInt 2) F64.zero F64.zero samplePage (.element 1 "P" [.text 2])
      samplePage_p_mem (by decide)
  exact h3.trans h1.symm

/-- C6, counterexample: for the percentage `150%` and font size 16, `parseLineHeight` returns
16 * 150 = 2400, not the fallback 16 * 1.2 = 19.2 (which it does return for `normal`). -/
theorem parseLineHeight_percentage :
    parseLineHeight "150%" (parseFloat "16") = F64.ofInt 2400 ∧
    parseLineHeight "normal" (parseFloat "16") = F64.lit 192 1 ∧
    px (F64.add (parseLineHeight "normal" (parseFloat "16")) (F64.ofInt 10)) = "29.2px" ∧
    parseLineHeight "150%" (parseFloat "16") ≠ F64.mul (parseFloat "16") (F64.lit 12 1) := by
  decide

/-- C6 (as amended): `parseLineHeight(str, fs)` is `fs * 1.2` for `normal`; the number before
the unit for a pixel length `t ++ "px"` with `t` a unitless number text; `fs` times the number
for a unitless number text (which `parseFloat` always reads); and `fs * 1.2` for every other
string in which `parseFloat` reads no number.  With computed line height `normal` and font size
16px the base is 19.2, and the delta +10 gives the text `29.2px`, which the paragraph of the
sample page receives. -/
theorem parseLineHeight_cases (fs : F64) :
    parseLineHeight "normal" fs = F64.mul fs (F64.lit 12 1) ∧
    (∀ t : String, isUnitlessNumber t = true →
      parseLineHeight (t ++ "px") fs = parseFloat t ∧ (parseFloat t).isNaN = false) ∧
    (∀ s : String, isUnitlessNumber s = true →
      parseLineHeight s fs = F64.mul fs (parseFloat s) ∧ (parseFloat s).isNaN = false) ∧
    (∀ s : String, s ≠ "normal" → jsEndsWith s "px" = false → readsNoNumber s = true →
      parseLineHeight s fs = F64.mul fs (F64.lit 12 1)) ∧
    parseLineHeight "normal" (parsePx "16px") = F64.lit 192 1 ∧
    px (F64.add (parseLineHeight "normal" (parsePx "16px")) (F64.ofInt 10)) = "29.2px" ∧
    getDecl ((applyRelativeStyles sampleHost F64.zero (F64.ofInt 10) F64.zero samplePage).style 1)
      "line-height" = some ⟨"line-height", "29.2px", true⟩ := by
  refine ⟨by simp [parseLineHeight], ?_, ?_, ?_, by decide, by decide, by decide⟩
  · intro t ht
    have hne : t ++ "px" ≠ "normal" := by
      intro e
      have h1 := endsWith_px t
      rw [e] at h1
      exact absurd h1 (by decide)
    refine ⟨?_, unitless_not_nan t ht⟩
    unfold parseLineHeight
    rw [if_neg hne, if_pos (endsWith_px t), jsRemove_px t (unitless_no_p t ht)]
  · intro s hs
    have hne : s ≠ "normal" := by
      intro e
      subst e
      exact absurd hs (by decide)
    have hnan := unitless_not_nan s hs
    refine ⟨?_, hnan⟩
    unfold parseLineHeight
    rw [if_neg hne, if_neg (by rw [unitless_not_px s hs]; decide)]
    simp [hnan]
  · intro s hne hpx hno
    unfold parseLineHeight
    rw [if_neg hne, if_neg (by rw [hpx]; decide), readsNoNumber_nan s hno]
    simp [F64.isNaN]

/-- Witness for C6 (as amended): at font size 16, `24px` gives 24, `1.5` gives 16 * 1.5 = 24,
and `auto` gives 16 * 1.2 = 19.2. -/
theorem parseLineHeight_cases_witness :
    parseLineHeight "24px" (F64.ofInt 16) = F64.ofInt 24 ∧
    parseLineHeight "1.5" (F64.ofInt 16) = F64.ofInt 24 ∧
    parseLineHeight "auto" (F64.ofInt 16) = F64.lit 192 1 :=
  ⟨(((parseLineHeight_cases (F64.ofInt 16)).2.1 "24" (by decide)).1).trans (by decide),
   (((parseLineHeight_cases (F64.ofInt 16)).2.2.1 "1.5" (by decide)).1).trans (by decide),
   ((parseLineHeight_cases (F64.ofInt 16)).2.2.2.1 "auto" (by decide) (by decide)
      (by decide)).trans (by decide)⟩

/-- C7, counterexample: snapshot font size 16px and line height 20px; after the deltas
(0, +5, 0) and then (-20, -30, 0) the sum 20 - 30 is `<= 0`, the fallback 16 - 20 is not `> 0`,
and the paragraph keeps the line height 25px computed for the earlier delta, which is not the
new font size. -/
theorem lineHeight_left_from_earlier_delta :
    F64.le (lineHeightSum ⟨"16px", "20px", "normal", "block", none⟩ (F64.ofInt (-30))) F64.zero
      = true ∧
    px (newFontSize ⟨"16px", "20px", "normal", "block", none⟩ (F64.ofInt (-20))) = "-4px" ∧
    (applyRelativeStyles (sheetBrowser "16px" "20px" "normal") F64.zero (F64.ofInt 5) F64.zero
      samplePage).liteReadOriginalStyles 1 = some ⟨"16px", "20px", "normal", "block", none⟩ ∧
    getDecl ((applyRelativeStyles (sheetBrowser "16px" "20px" "normal") (F64.ofInt (-20))
      (F64.ofInt (-30)) F64.zero
      (applyRelativeStyles (sheetBrowser "16px" "20px" "normal") F64.zero (F64.ofInt 5) F64.zero
        samplePage)).style 1) "line-height" = some ⟨"line-height", "25px", true⟩ ∧
    getDecl ((applyRelativeStyles (sheetBrowser "16px" "20px" "normal") (F64.ofInt (-20))
      (F64.ofInt (-30)) F64.zero
      (applyRelativeStyles (sheetBrowser "16px" "20px" "normal") F64.zero (F64.ofInt 5) F64.zero
        samplePage)).style 1) "line-height" ≠
      some ⟨"line-height",
        px (newFontSize ⟨"16px", "20px", "normal", "block", none⟩ (F64.ofInt (-20))), true⟩ := by
  decide

/-- Witness for C7 (as amended): line height `normal` at 16px with delta +10 gives 29.2px. -/
theorem lineHeight_override_witness :
    getDecl ((applyRelativeStyles sampleHost F64.zero (F64.ofInt 10) F64.zero samplePage).style 1)
      "line-height" = some ⟨"line-height", "29.2px", true⟩ := by
  obtain ⟨snap, h1, h2, _⟩ :=
    lineHeight_override sampleHost F64.zero (F64.ofInt 10) F64.zero samplePage
      (.element 1 "P" [.text 2]) samplePage_p_mem (by decide)
  have h0 : (applyRelativeStyles sampleHost F64.zero (F64.ofInt 10) F64.zero
      samplePage).liteReadOriginalStyles 1 = some ⟨"16px", "normal", "normal", "block", none⟩ := by
    decide
  have hs : snap = ⟨"16px", "normal", "normal", "block", none⟩ :=
    Option.some.inj (h1.symm.trans h0)
  subst hs
  exact (h2 (by decide)).trans (by decide)

/-- Witness for C8: computed font size 16px with delta +2 gives the inline font size 18px. -/
theorem fontSize_override_witness :
    getDecl ((applyRelativeStyles sampleHost (F64.ofInt 2) F64.zero F64.zero samplePage).style 1)
      "font-size" = some ⟨"font-size", "18px", true⟩ := by
  obtain ⟨snap, h1, h2, _⟩ :=
    fontSize_override sampleHost (F64.ofInt 2) F64.zero F64.zero samplePage
      (.element 1 "P" [.text 2]) samplePage_p_mem (by decide)
  have h0 : (applyRelativeStyles sampleHost (F64.ofInt 2) F64.zero F64.zero
      samplePage).liteReadOriginalStyles 1 = some ⟨"16px", "normal", "normal", "block", none⟩ := by
    decide
  have hs : snap = ⟨"16px", "normal", "normal", "block", none⟩ :=
    Option.some.inj (h1.symm.trans h0)
  subst hs
  exact (h2 (by decide)).trans (by decide)

/-- C9, counterexample: after the adjustment (+2, 0, 0) a request with all-zero deltas and
spacing enabled turns the spacing on and resets the styles: the paragraph loses its overrides and
the styles-applied flag is cleared, where `applyRelativeStyles` with the new deltas would have
left a font-size override. -/
theorem zero_deltas_with_spacing_resets :
    (liteReadUpdateStyles sampleHost "0" "0" "0" (some true)
      (liteReadUpdateStyles sampleHost "2" "0" "0" (some false) samplePage)).liteReadPanguApplied
      = true ∧
    (liteReadUpdateStyles sampleHost "0" "0" "0" (some true)
      (liteReadUpdateStyles sampleHost "2" "0" "0" (some false) samplePage)).panguMarker
      = some "true" ∧
    getDecl ((liteReadUpdateStyles sampleHost "2" "0" "0" (some false) samplePage).style 1)
      "font-size" = some ⟨"font-size", "18px", true⟩ ∧
    (liteReadUpdateStyles sampleHost "0" "0" "0" (some true)
      (liteReadUpdateStyles sampleHost "2" "0" "0" (some false) samplePage)).style 1 = none ∧
    (liteReadUpdateStyles sampleHost "0" "0" "0" (some true)
      (liteReadUpdateStyles sampleHost "2" "0" "0" (some false) samplePage)).liteReadStylesApplied
      = false ∧
    getDecl ((applyRelativeStyles sampleHost (parseInt "0") (parseFloat "0") (parseFloat "0")
      (liteReadUpdateStyles sampleHost "2" "0" "0" (some false) samplePage)).style 1)
      "font-size" = some ⟨"font-size", "16px", true⟩ := by
  decide

/-- C9 (as amended): `liteReadUpdateStyles` calls `resetStyles` exactly when the three new
deltas are zero (`fontSizeDelta === 0`, the other two below 0.01 in absolute value), whatever
the spacing flag, and calls `applyRelativeStyles` with the new deltas otherwise; so the
styles-applied flag it leaves is the negation of that test, and a request with all-zero deltas
and spacing enabled resets. -/
theorem liteReadUpdateStyles_dispatch (B : Browser) (fs lh ls : String) (p : Option Bool)
    (w : Window) :
    liteReadUpdateStyles B fs lh ls p w =
      (if (F64.strictEq (parseInt fs) F64.zero &&
            F64.lt (F64.abs (parseFloat lh)) (F64.lit 1 2) &&
            F64.lt (F64.abs (parseFloat ls)) (F64.lit 1 2)) = true
        then resetStyles (handlePangu B p
          { w with liteReadState := ⟨parseInt fs, parseFloat lh, parseFloat ls⟩ })
        else applyRelativeStyles B (parseInt fs) (parseFloat lh) (parseFloat ls)
          (handlePangu B p
            { w with liteReadState := ⟨parseInt fs, parseFloat lh, parseFloat ls⟩ })) ∧
    (liteReadUpdateStyles B fs lh ls p w).liteReadStylesApplied =
      !(F64.strictEq (parseInt fs) F64.zero &&
        F64.lt (F64.abs (parseFloat lh)) (F64.lit 1 2) &&
        F64.lt (F64.abs (parseFloat ls)) (F64.lit 1 2)) ∧
    liteReadUpdateStyles B "0" "0" "0" (some true) w =
      resetStyles (handlePangu B (some true)
        { w with liteReadState := ⟨parseInt "0", parseFloat "0", parseFloat "0"⟩ }) := by
  refine ⟨rfl, ?_, ?_⟩
  · unfold liteReadUpdateStyles isDefault
    simp only []
    cases (F64.strictEq (parseInt fs) F64.zero &&
        F64.lt (F64.abs (parseFloat lh)) (F64.lit 1 2) &&
        F64.lt (F64.abs (parseFloat ls)) (F64.lit 1 2))
    · simp only [Bool.false_eq_true, if_false, Bool.not_false]
      rfl
    · simp only [if_true, Bool.not_true]
      exact resetStyles_flag _
  · have h : isDefault ⟨parseInt "0", parseFloat "0", parseFloat "0"⟩ = true := by decide
    unfold liteReadUpdateStyles
    simp only [h, if_true]

/-- C10: the adjustment (+2, 0, 0), a document mutation, and the identity adjustment leave
the overlay state identity, the paragraph without overrides and the timer of the mutation still
pending; when that timer fires, `applyRelativeStyles` runs with zero deltas and writes overrides
again. -/
theorem pending_timer_fires_after_reset :
    isDefault (run sampleHost samplePage
      [.updateStyles "2" "0" "0" (some false), .mutation samplePage.body,
       .updateStyles "0" "0" "0" (some false)]).liteReadState = true ∧
    (run sampleHost samplePage
      [.updateStyles "2" "0" "0" (some false), .mutation samplePage.body,
       .updateStyles "0" "0" "0" (some false)]).timers = [1] ∧
    (run sampleHost samplePage
      [.updateStyles "2" "0" "0" (some false), .mutation samplePage.body,
       .updateStyles "0" "0" "0" (some false)]).style 1 = none ∧
    isDefault (run sampleHost samplePage
      [.updateStyles "2" "0" "0" (some false), .mutation samplePage.body,
       .updateStyles "0" "0" "0" (some false), .timeout 1]).liteReadState = true ∧
    (run sampleHost samplePage
      [.updateStyles "2" "0" "0" (some false), .mutation samplePage.body,
       .updateStyles "0" "0" "0" (some false), .timeout 1]).liteReadStylesApplied = true ∧
    getAttributeStyle ((run sampleHost samplePage
      [.updateStyles "2" "0" "0" (some false), .mutation samplePage.body,
       .updateStyles "0" "0" "0" (some false), .timeout 1]).style 1) =
      some ("font-size: 16px !important; line-height: 19.2px !important; " ++
        "letter-spacing: 0px !important;") := by
  decide

theorem inlinePage_elements : querySelectorAll inlinePage = [.element 1 "P" [.text 2]] := by rfl

/-- Witness for C11: on the page with an inline `font-size: 12px; color: red`, adjusted by
(+2, 0, 0), the reset clears the flag and leaves the paragraph without font-size but with its
colour. -/
theorem resetStyles_effect_witness :
    (resetStyles (applyRelativeStyles sampleHost (F64.ofInt 2) F64.zero F64.zero
      inlinePage)).liteReadStylesApplied = false ∧
    getDecl ((resetStyles (applyRelativeStyles sampleHost (F64.ofInt 2) F64.zero F64.zero
      inlinePage)).style 1) "font-size" = none ∧
    getDecl ((resetStyles (applyRelativeStyles sampleHost (F64.ofInt 2) F64.zero F64.zero
      inlinePage)).style 1) "color" = some ⟨"color", "red", false⟩ := by
  have h := (resetStyles_effect
    (applyRelativeStyles sampleHost (F64.ofInt 2) F64.zero F64.zero inlinePage)).2 (by decide)
  have hmem : Tree.element 1 "P" [.text 2] ∈
      querySelectorAll (applyRelativeStyles sampleHost (F64.ofInt 2) F64.zero F64.zero
        inlinePage) := by
    rw [querySelectorAll_congr _ inlinePage (applyRelativeStyles_body _ _ _ _ _),
      inlinePage_elements]
    exact List.mem_cons_self _ _
  have hel := h.2 (.element 1 "P" [.text 2]) hmem
    ⟨"12px", "normal", "normal", "block", some "font-size: 12px; color: red;"⟩ (by decide)
  exact ⟨h.1, hel.1 "font-size" (by decide), (hel.2.1 "color" (by decide)).trans (by decide)⟩

/-- C12, counterexample: snapshot font size 16px; after the deltas (+2, 0, 0) and then
(-20, 0, 0) the new font size 16 - 20 is `<= 0` and the paragraph still carries the font size
18px of the first delta, whereas (-20, 0, 0) alone leaves it without a font-size override. -/
theorem fontSize_left_from_earlier_delta :
    F64.le (newFontSize ⟨"16px", "normal", "normal", "block", none⟩ (F64.ofInt (-20))) F64.zero
      = true ∧
    getDecl ((applyRelativeStyles sampleHost (F64.ofInt (-20)) F64.zero F64.zero
      (applyRelativeStyles sampleHost (F64.ofInt 2) F64.zero F64.zero samplePage)).style 1)
      "font-size" = some ⟨"font-size", "18px", true⟩ ∧
    getDecl ((applyRelativeStyles sampleHost (F64.ofInt (-20)) F64.zero F64.zero
      samplePage).style 1) "font-size" = none ∧
    (applyRelativeStyles sampleHost (F64.ofInt (-20)) F64.zero F64.zero
      (applyRelativeStyles sampleHost (F64.ofInt 2) F64.zero F64.zero
        samplePage)).liteReadOriginalStyles 1 =
    (applyRelativeStyles sampleHost (F64.ofInt (-20)) F64.zero F64.zero
      samplePage).liteReadOriginalStyles 1 := by
  decide

/-- Witness for C12 (as amended): the paragraph of the sample page, deltas (+2, +10, +0.5) and
then (+4, 0, 0), ends with the font size 20px, as after (+4, 0, 0) alone. -/
theorem overrides_after_two_deltas_witness :
    getDecl ((applyRelativeStyles sampleHost (F64.ofInt 4) F64.zero F64.zero
      (applyRelativeStyles sampleHost (F64.ofInt 2) (F64.ofInt 10) (F64.lit 5 1)
        samplePage)).style 1) "font-size" =
    getDecl ((applyRelativeStyles sampleHost (F64.ofInt 4) F64.zero F64.zero samplePage).style 1)
      "font-size" := by
  obtain ⟨snap, hs2, _, ⟨h12, h2⟩, _⟩ :=
    overrides_after_two_deltas sampleHost (F64.ofInt 2) (F64.ofInt 10) (F64.lit 5 1)
      (F64.ofInt 4) F64.zero F64.zero samplePage (.element 1 "P" [.text 2])
      samplePage_p_mem (by decide) (by decide)
  have h0 : (applyRelativeStyles sampleHost (F64.ofInt 4) F64.zero F64.zero
      samplePage).liteReadOriginalStyles 1 = some ⟨"16px", "normal", "normal", "block", none⟩ := by
    decide
  have hs : snap = ⟨"16px", "normal", "normal", "block", none⟩ :=
    Option.some.inj (hs2.symm.trans h0)
  subst hs
  have hcond : F64.gt (newFontSize ⟨"16px", "normal", "normal", "block", none⟩ (F64.ofInt 4))
        F64.zero = true ∧
      sampleHost.supports "font-size"
        (px (newFontSize ⟨"16px", "normal", "normal", "block", none⟩ (F64.ofInt 4))) = true := by
    decide
  rw [if_pos hcond] at h12 h2
  exact h12.trans h2.symm

/-- With inheritance the snapshot of an element first reached during a pass depends on the
deltas of that pass: the span's snapshot is taken after the paragraph was written, so after
(+2, 0, 0) then (+4, 0, 0) the span has 18 + 4 = 22px, but after (+4, 0, 0) alone 20 + 4 =
24px. -/
theorem nested_snapshot_depends_on_delta :
    (applyRelativeStyles inheritingHost (F64.ofInt 2) F64.zero F64.zero
      nestedPage).liteReadOriginalStyles 3 =
      some ⟨"18px", "normal", "normal", "block", none⟩ ∧
    (applyRelativeStyles inheritingHost (F64.ofInt 4) F64.zero F64.zero
      nestedPage).liteReadOriginalStyles 3 =
      some ⟨"20px", "normal", "normal", "block", none⟩ ∧
    getDecl ((applyRelativeStyles inheritingHost (F64.ofInt 4) F64.zero F64.zero
      (applyRelativeStyles inheritingHost (F64.ofInt 2) F64.zero F64.zero nestedPage)).style 3)
      "font-size" = some ⟨"font-size", "22px", true⟩ ∧
    getDecl ((applyRelativeStyles inheritingHost (F64.ofInt 4) F64.zero F64.zero
      nestedPage).style 3) "font-size" = some ⟨"font-size", "24px", true⟩ := by
  decide

end LiteRead
